import Mathlib

/-!
Verification of the `matsim` analysis core: a shallow embedding of
`src/atsim/analysis/compute_funcs.py` (dependency resolver and compute
functions) and `src/geometry.py` (parallelepiped corners, edge paths and
bounding boxes), together with theorems settling the specification claims.

Python dynamic values are modelled by the inductive `PyVal` (ints, floats as
exact rationals, strings, `None`, and numeric arrays as rational lists).
Python exceptions are modelled by the `Except Err` monad, with one `Err`
constructor per distinct raise site.  Dictionaries holding compute
definitions are modelled by the record `Defn` whose fields are all optional
(an absent key is `none`).
-/

/-- A dynamically typed Python value, as used by the analysis code:
integers, floats (modelled exactly as rationals), strings, `None`, and 1-D
numeric arrays (lists of rationals). -/
inductive PyVal where
  | intV (i : ℤ)
  | floatV (q : ℚ)
  | strV (s : String)
  | noneV
  | vecV (l : List ℚ)
deriving DecidableEq, Repr

/-- Error kinds, one per distinct raise site of the embedded code.
`unknownCompute`, `invalidEnergySource`, `invalidArgument` and
`originCountMismatch` are the `ValueError`s raised by `get_depends`,
`energy` and `get_box_xyz`; the remaining constructors model the Python
runtime errors (`KeyError`, `TypeError`, `IndexError`, `ZeroDivisionError`,
`RecursionError`) that dynamically typed code can raise. -/
inductive Err where
  | unknownCompute (name : String)
  | invalidEnergySource (src method : String)
  | invalidArgument
  | originCountMismatch
  | keyError (key : String)
  | typeError
  | indexError
  | zeroDivision
  | broadcastMismatch
  | recursionError
deriving DecidableEq, Repr

/-- `d[k]` for an optional dictionary entry: raises `KeyError` when absent. -/
def ofKey {α : Type} (k : String) (o : Option α) : Except Err α :=
  match o with
  | none => .error (.keyError k)
  | some v => .ok v

/-- Numeric view of a Python value (`int` and `float` both act as numbers). -/
def PyVal.toQ : PyVal → Option ℚ
  | .intV i => some (i : ℚ)
  | .floatV q => some q
  | _ => none

/-- `isinstance(v, int)`. -/
def PyVal.isInt : PyVal → Bool
  | .intV _ => true
  | _ => false

/-- Python `==` between two values: numbers compare by numeric value across
`int`/`float`, other kinds compare structurally, mixed kinds are unequal. -/
def pyEqB (a b : PyVal) : Bool :=
  match a.toQ, b.toQ with
  | some x, some y => x = y
  | _, _ =>
    match a, b with
    | .strV s, .strV t => s = t
    | .noneV, .noneV => true
    | .vecV l, .vecV m => l = m
    | _, _ => false

/-- Python `==` between two lists of values (elementwise `==`). -/
def rowEqB (a b : List PyVal) : Bool :=
  a.length = b.length && (List.zipWith pyEqB a b).all id

/-- Python binary `-` on numbers: `int - int` is an `int`, any other numeric
pair is a `float`; non-numeric operands raise `TypeError`. -/
def pySub (a b : PyVal) : Except Err PyVal :=
  match a, b with
  | .intV x, .intV y => .ok (.intV (x - y))
  | _, _ =>
    match a.toQ, b.toQ with
    | some x, some y => .ok (.floatV (x - y))
    | _, _ => .error .typeError

/-- Python binary `*` on numbers, with the same kind rules as `pySub`. -/
def pyMul (a b : PyVal) : Except Err PyVal :=
  match a, b with
  | .intV x, .intV y => .ok (.intV (x * y))
  | _, _ =>
    match a.toQ, b.toQ with
    | some x, some y => .ok (.floatV (x * y))
    | _, _ => .error .typeError

/-- Python binary `/` (true division): always a `float`; raises
`ZeroDivisionError` on a zero divisor and `TypeError` on non-numbers. -/
def pyDiv (a b : PyVal) : Except Err PyVal :=
  match a.toQ, b.toQ with
  | some x, some y => if y = 0 then .error .zeroDivision else .ok (.floatV (x / y))
  | _, _ => .error .typeError

/-- Python sequence indexing `l[k]` on a numeric array, with negative-index
wrap-around; out-of-range indices raise `IndexError`, non-sequences
`TypeError`. -/
def pyIndex (v : PyVal) (k : ℤ) : Except Err PyVal :=
  match v with
  | .vecV l =>
    if h : 0 ≤ k ∧ k.toNat < l.length then .ok (.floatV (l.get ⟨k.toNat, h.2⟩))
    else if h2 : k < 0 ∧ (k + l.length).toNat < l.length ∧ 0 ≤ k + l.length then
      .ok (.floatV (l.get ⟨(k + l.length).toNat, h2.2.1⟩))
    else .error .indexError
  | _ => .error .typeError

/-- A compute definition: a Python dict with the keys used by
`compute_funcs.py`.  Every field is optional; `none` models an absent key
(`opt_step` may also be present with value `None`, hence its `PyVal` type). -/
structure Defn where
  type : Option String := none
  name : Option String := none
  id : Option String := none
  col_id : Option String := none
  energy_src : Option String := none
  opt_step : Option PyVal := none
  series_id : Option (List String) := none
  unit : Option String := none
  info_name : Option String := none
  vals : Option (List PyVal) := none
deriving DecidableEq, Repr

/-- The keyword arguments accepted by `get_depends`; `none` models an absent
keyword. -/
structure Kwargs where
  energy_src : Option String := none
  opt_step : Option PyVal := none
  series_id : Option (List String) := none
  unit : Option String := none
  info_name : Option String := none
deriving DecidableEq, Repr

/-- One optional dict entry of a query matches a candidate entry when the
query leaves it unconstrained or the values agree. -/
def fieldMatch {α : Type} [DecidableEq α] (qf df : Option α) : Bool :=
  qf = none || qf = df

/-- A query definition matches a candidate definition when every key present
in the query is present in the candidate with an equal value. -/
def matchesQuery (q d : Defn) : Bool :=
  fieldMatch q.type d.type && fieldMatch q.name d.name && fieldMatch q.id d.id &&
  fieldMatch q.col_id d.col_id && fieldMatch q.energy_src d.energy_src &&
  fieldMatch q.opt_step d.opt_step && fieldMatch q.series_id d.series_id &&
  fieldMatch q.unit d.unit && fieldMatch q.info_name d.info_name &&
  fieldMatch q.vals d.vals

/-- Modelled from the spec: `dict_from_list` (from `atsim.utils`, which is
not under `src/`) searches an ordered sequence of dicts for the first one
matching the query's key-value pairs ("search the accumulated list for a
structurally identical definition"; "resolved ... from a variable by id"),
returning `None` when there is no match. -/
def dict_from_list (l : List Defn) (q : Defn) : Option Defn :=
  l.find? (fun d => matchesQuery q d)

/-- `PREDEFINED_VARS['gb_area']`. -/
def predefined_gb_area : Defn :=
  { type := some "compute", name := some "gb_area", id := some "gb_area" }

/-- `PREDEFINED_VARS['gb_boundary_vac']`. -/
def predefined_gb_boundary_vac : Defn :=
  { type := some "compute", name := some "gb_boundary_vac", id := some "gb_boundary_vac" }

/-- `PREDEFINED_VARS['sup_type']`. -/
def predefined_sup_type : Defn :=
  { type := some "compute", name := some "supercell_type", id := some "supercell_type" }

/-- `PREDEFINED_VARS['gb_dist_initial']`. -/
def predefined_gb_dist_initial : Defn :=
  { type := some "compute", name := some "atoms_gb_dist_initial", id := some "atoms_gb_dist_initial" }

/-- `PREDEFINED_VARS['gb_dist_final']`. -/
def predefined_gb_dist_final : Defn :=
  { type := some "compute", name := some "atoms_gb_dist_final", id := some "atoms_gb_dist_final" }

/-- `PREDEFINED_VARS['gb_dist_change']`. -/
def predefined_gb_dist_change : Defn :=
  { type := some "compute", name := some "atoms_gb_dist_change", id := some "atoms_gb_dist_change" }

/-- Keys of `SINGLE_COMPUTE_LOOKUP`, in source order. -/
def single_compute_names : List String :=
  ["num_atoms", "energy", "energy_per_atom", "gb_area", "supercell_type",
   "gb_thickness", "gb_boundary_vac", "atoms_gb_dist_initial",
   "atoms_gb_dist_final", "atoms_gb_dist_change"]

/-- Keys of `MULTI_COMPUTE_LOOKUP`, in source order. -/
def multi_compute_names : List String :=
  ["gb_energy", "gamma_surface_info", "master_gamma"]

/-- `allowed_computes`: the registry, the union of single- and multi-compute
names. -/
def allowed_computes : List String := single_compute_names ++ multi_compute_names

/-- The final pass of `get_depends` over the accumulated list: add an empty
`vals` entry when `inc_val` is set and the key is absent, remove a present
`vals` entry when `inc_val` is unset. -/
def setValsPass (inc_val : Bool) (out : List Defn) : List Defn :=
  out.map (fun v =>
    match v.vals, inc_val with
    | none, true => { v with vals := some [] }
    | some _, false => { v with vals := none }
    | _, _ => v)

/-- The three synthetic series-index definitions of the
`gamma_surface_info` branch of `get_depends` (`csi_idx`, `grid_idx`,
`point_idx`), with `id` added when `inc_id` is set. -/
def gammaSeriesDefn (nm : String) (inc_id : Bool) : Defn :=
  let d : Defn := { name := some nm, type := some "series_id", col_id := some "relative_shift" }
  if inc_id then { d with id := some nm } else d

/-- `get_depends`, with an explicit recursion-depth fuel (the source
recursion is bounded: `master_gamma` → `gb_energy` → `energy` is the longest
chain, so fuel 3 in the wrapper `get_depends` below never runs out).
Returns the dependency-ordered definition list or the raised error. -/
def get_dependsAux : Nat → String → Bool → Bool → Kwargs → Except Err (List Defn)
  | 0, _, _, _, _ => .error .recursionError
  | fuel + 1, compute_name, inc_id, inc_val, kw => do
    if compute_name ∉ allowed_computes then
      .error (.unknownCompute compute_name)
    else
      let d0 : Defn := { type := some "compute", name := some compute_name }
      let d0 := if inc_id then { d0 with id := some compute_name } else d0
      let (d, out) ←
        if compute_name = "gb_energy" then do
          let es ← ofKey "energy_src" kw.energy_src
          let os ← ofKey "opt_step" kw.opt_step
          let sid ← ofKey "series_id" kw.series_id
          let u ← ofKey "unit" kw.unit
          let d := { d0 with energy_src := some es, opt_step := some os,
                             series_id := some sid, unit := some u }
          let l1 ← get_dependsAux fuel "energy" inc_id inc_val
                     { energy_src := some es, opt_step := some os }
          let l2 ← get_dependsAux fuel "num_atoms" inc_id inc_val {}
          pure (d, l1 ++ l2 ++ [predefined_gb_area, predefined_sup_type])
        else if compute_name = "energy_per_atom" then do
          let es ← ofKey "energy_src" kw.energy_src
          let os ← ofKey "opt_step" kw.opt_step
          let d := { d0 with energy_src := some es, opt_step := some os }
          let l1 ← get_dependsAux fuel "num_atoms" inc_id inc_val {}
          let l2 ← get_dependsAux fuel "energy" inc_id inc_val
                     { energy_src := some es, opt_step := some os }
          pure (d, l1 ++ l2)
        else if compute_name = "gamma_surface_info" then do
          let inm ← ofKey "info_name" kw.info_name
          let d := { d0 with info_name := some inm }
          pure (d, [gammaSeriesDefn "csi_idx" inc_id, gammaSeriesDefn "grid_idx" inc_id,
                    gammaSeriesDefn "point_idx" inc_id])
        else if compute_name = "master_gamma" then do
          let es ← ofKey "energy_src" kw.energy_src
          let os ← ofKey "opt_step" kw.opt_step
          let sid ← ofKey "series_id" kw.series_id
          let u ← ofKey "unit" kw.unit
          let d := { d0 with energy_src := some es, opt_step := some os,
                             series_id := some sid, unit := some u }
          -- The source passes the misspelt keyword `inv_val=inc_val` to every
          -- nested call here, so each nested call sees its default
          -- `inc_val=True` and ignores the stray keyword.
          let l1 ← get_dependsAux fuel "gb_energy" inc_id true
                     { energy_src := some es, opt_step := some os,
                       series_id := some sid, unit := some u }
          let l2 ← get_dependsAux fuel "gamma_surface_info" inc_id true { info_name := some "row_idx" }
          let l3 ← get_dependsAux fuel "gamma_surface_info" inc_id true { info_name := some "col_idx" }
          let l4 ← get_dependsAux fuel "gamma_surface_info" inc_id true { info_name := some "x_std_vals" }
          let l5 ← get_dependsAux fuel "gamma_surface_info" inc_id true { info_name := some "y_std_vals" }
          let l6 ← get_dependsAux fuel "gamma_surface_info" inc_id true { info_name := some "x_frac_vals" }
          let l7 ← get_dependsAux fuel "gamma_surface_info" inc_id true { info_name := some "y_frac_vals" }
          let l8 ← get_dependsAux fuel "gamma_surface_info" inc_id true { info_name := some "grid_shape" }
          pure (d, l1 ++ l2 ++ l3 ++ l4 ++ l5 ++ l6 ++ l7 ++ l8 ++ [predefined_gb_boundary_vac])
        else if compute_name = "energy" then do
          let es ← ofKey "energy_src" kw.energy_src
          let d := { d0 with energy_src := some es }
          let os := kw.opt_step.getD .noneV
          let d := if os ≠ .noneV then { d with opt_step := some os } else d
          pure (d, [])
        else if compute_name = "atoms_gb_dist_change" then
          pure (d0, [predefined_gb_dist_initial, predefined_gb_dist_final, predefined_sup_type])
        else
          pure (d0, ([] : List Defn))
      let out := match dict_from_list out d with
        | none => out ++ [d]
        | some _ => out
      pure (setValsPass inc_val out)

/-- `get_depends(compute_name, inc_id=..., inc_val=..., **kwargs)`. -/
def get_depends (compute_name : String) (inc_id inc_val : Bool) (kw : Kwargs) :
    Except Err (List Defn) :=
  get_dependsAux 3 compute_name inc_id inc_val kw

/-- The output store (`out`) consumed by the compute functions: resolved
variables, declared series names, per-simulation series values
(`out['series_id']['val']`), and the session grouping. -/
structure Out where
  vars : List Defn
  series_name : List String
  series_id_val : List (List PyVal)
  session_id : List PyVal
  session_id_idx : List ℕ

/-- Python list indexing `l[i]` for a non-negative index. -/
def listIdx {α : Type} (l : List α) (i : ℕ) : Except Err α :=
  match l.get? i with
  | some v => .ok v
  | none => .error .indexError

/-- Python list assignment `l[i] = v` for a non-negative index. -/
def listSet {α : Type} (l : List α) (i : ℕ) (v : α) : Except Err (List α) :=
  if i < l.length then .ok (l.set i v) else .error .indexError

/-- Modelled from the spec: `utils.get_col` (from `atsim.utils`, which is
not under `src/`) extracts one column from the row-per-simulation table of
series values. -/
def get_col (table : List (List PyVal)) (idx : ℕ) : Except Err (List PyVal) :=
  table.mapM (fun row => listIdx row idx)

/-- Modelled from the spec: `utils.transpose_list` (from `atsim.utils`,
which is not under `src/`) transposes a list of per-series columns into
per-simulation rows, `zip`-style: there are as many rows as the shortest
column, and no rows at all when there are no columns. -/
def transpose_list (cols : List (List PyVal)) : List (List PyVal) :=
  match (cols.map List.length).min? with
  | none => []
  | some n => (List.range n).map (fun j => cols.filterMap (fun c => c.get? j))

/-- One iteration of the series-value resolution loop of `gb_energy`: a
declared series name resolves to the corresponding column of
`out['series_id']['val']`; otherwise the values of the variable with that
id are used. -/
def resolveSeriesCol (out : Out) (i : String) : Except Err (List PyVal) :=
  match out.series_name.indexOf? i with
  | some i_idx => get_col out.series_id_val i_idx
  | none =>
    match dict_from_list out.vars { id := some i } with
    | none => .error .typeError
    | some d => ofKey "vals" d.vals

/-- The per-simulation series-value tuples built by `gb_energy`: resolved
columns transposed; when no column remains, every simulation gets the
implicit tuple `[0]`. -/
def srsValsOf (out : Out) (series_id : List String) (num_sims : ℕ) :
    Except Err (List (List PyVal)) := do
  let cols ← series_id.mapM (resolveSeriesCol out)
  let s := transpose_list cols
  pure (if s.length = 0 then List.replicate num_sims [PyVal.intV 0] else s)

/-- The eV/Å² → J/m² conversion factor `16.02176565` used by `gb_energy`. -/
def jm2Factor : ℚ := 1602176565 / 100000000

/-- `gb_idx`: the indices the `gb_energy` partition loop labels
`bicrystal`. -/
def bicrystalIdx (sup_type : List PyVal) : List ℕ :=
  (sup_type.enum.filter (fun p => pyEqB p.2 (.strV "bicrystal"))).map Prod.fst

/-- `bulk_idx`: the indices the `gb_energy` partition loop labels `bulk`. -/
def bulkIdx (sup_type : List PyVal) : List ℕ :=
  (sup_type.enum.filter (fun p => pyEqB p.2 (.strV "bulk"))).map Prod.fst

/-- The bulk partner the `gb_energy` matching loop retains for bicrystal
index `g`: the loop overwrites `E_gb` on every matching bulk, so the last
bulk whose series-value row equals row `g` wins. -/
def lastMatchingBulk (S : List (List PyVal)) (sup_type : List PyVal) (g : ℕ) : Option ℕ :=
  (bulkIdx sup_type).reverse.find? (fun b => rowEqB (S.getD g []) (S.getD b []))

/-- The inner loop of `gb_energy` over the bulk simulations: each bulk whose
series-value tuple equals the bicrystal's overwrites `E_gb` with
`(energy[gb_i] - (num[gb_i]/num[bulk_i]) * energy[bulk_i]) / (2 * area[gb_i])`. -/
def gbMatchFold (srs_vals : List (List PyVal)) (energy num_atoms area : List PyVal)
    (gb_i : ℕ) (bulk_idx : List ℕ) : Except Err (Option PyVal) :=
  bulk_idx.foldlM (fun acc bulk_i => do
    let sg ← listIdx srs_vals gb_i
    let sb ← listIdx srs_vals bulk_i
    if rowEqB sg sb then do
      let gb_num ← listIdx num_atoms gb_i
      let bulk_num ← listIdx num_atoms bulk_i
      let bulk_frac ← pyDiv gb_num bulk_num
      let eg ← listIdx energy gb_i
      let eb ← listIdx energy bulk_i
      let prod ← pyMul bulk_frac eb
      let numer ← pySub eg prod
      let ag ← listIdx area gb_i
      let denom ← pyMul (.intV 2) ag
      let r ← pyDiv numer denom
      pure (some r)
    else
      pure acc) none

/-- `gb_energy(out, req_vars)`: the multi-simulation grain-boundary-energy
compute.  The source writes the result into `req_vars[-1]['vals']`; here the
new `vals` list is returned. -/
def gb_energy (out : Out) (req_vars : List Defn) : Except Err (List PyVal) := do
  let d0 ← listIdx req_vars 0
  let energy ← ofKey "vals" d0.vals
  let d1 ← listIdx req_vars 1
  let num_atoms ← ofKey "vals" d1.vals
  let d2 ← listIdx req_vars 2
  let area ← ofKey "vals" d2.vals
  let d3 ← listIdx req_vars 3
  let sup_type ← ofKey "vals" d3.vals
  let dl ← match req_vars.getLast? with
    | some d => pure d
    | none => .error .indexError
  let series_id ← ofKey "series_id" dl.series_id
  let unit ← ofKey "unit" dl.unit
  let _sesh_ids ← out.session_id_idx.mapM (listIdx out.session_id)
  let num_sims := out.session_id_idx.length
  let srs_vals ← srsValsOf out series_id num_sims
  let gb_idx := bicrystalIdx sup_type
  let bulk_idx := bulkIdx sup_type
  let all_E_gb := List.replicate num_sims PyVal.noneV
  let all_E_gb ← gb_idx.foldlM (fun acc gb_i => do
    let e_gb ← gbMatchFold srs_vals energy num_atoms area gb_i bulk_idx
    match e_gb with
    | none => pure acc
    | some r => do
      let r ← if unit = "J/m^2" then pyMul r (.floatV jm2Factor) else pure r
      listSet acc gb_i r) all_E_gb
  pure all_E_gb

/-- A simulation, as consumed read-only by the compute functions:
`options['method']`, `options['base_structure']['type']`, the optional
`structure.meta['supercell_type']` tag list (absent when the structure has
no `meta` attribute), and the `results` dict. -/
structure Sim where
  method : String
  base_structure_type : String
  meta_supercell_type : Option (List String)
  results : String → Option PyVal

/-- `is_bicrystal(sim)`.  When `meta` is present but `'bicrystal'` is not
among the tags the source falls off the end and returns `None`, which is
falsy everywhere the result is used, so it is collapsed to `false` here. -/
def is_bicrystal (sim : Sim) : Bool :=
  match sim.meta_supercell_type with
  | some tags => tags.contains "bicrystal"
  | none => sim.base_structure_type = "CSLBicrystal"

/-- The `allowed_en_srcs` dict of the `energy` compute. -/
def allowed_en_srcs (method : String) : Option (List String) :=
  if method = "castep" then some ["final_energy", "final_fenergy", "final_zenergy"]
  else if method = "lammps" then some ["final_energy"]
  else none

/-- `energy(out, sim, sim_idx, energy_src, opt_step=None)`: look an energy
value up by source key, optionally indexing a per-step sequence.  The
`opt_step` argument is a Python value whose `None` means "not given". -/
def energyCompute (_out : Out) (sim : Sim) (_sim_idx : ℕ) (energy_src : String)
    (opt_step : PyVal) : Except Err PyVal := do
  let method := sim.method
  let allowed ← ofKey method (allowed_en_srcs method)
  if energy_src ∉ allowed then
    .error (.invalidEnergySource energy_src method)
  else do
    let e ← ofKey energy_src (sim.results energy_src)
    match opt_step with
    | .noneV => pure e
    | .intV k => pyIndex e k
    | _ => .error .invalidArgument

/-- `np.array(a) - np.array(b)`: elementwise difference with numpy scalar
and length-1 broadcasting; mismatched lengths and non-numeric operands
raise. -/
def npSub (a b : PyVal) : Except Err PyVal :=
  match a, b with
  | .vecV x, .vecV y =>
    if x.length = y.length then .ok (.vecV (List.zipWith (fun p q => p - q) x y))
    else
      match x, y with
      | [x0], y => .ok (.vecV (y.map (fun q => x0 - q)))
      | x, [y0] => .ok (.vecV (x.map (fun p => p - y0)))
      | _, _ => .error .broadcastMismatch
  | .vecV x, b =>
    match b.toQ with
    | some q => .ok (.vecV (x.map (fun p => p - q)))
    | none => .error .typeError
  | a, .vecV y =>
    match a.toQ with
    | some p => .ok (.vecV (y.map (fun q => p - q)))
    | none => .error .typeError
  | a, b => pySub a b

/-- `atoms_gb_dist_change(out, sim, sim_idx)`: re-resolve the dependency
definitions, look each one up among `out['variables']`, read the values at
`sim_idx`, and return `final - initial` for bicrystals (implicitly `None`
otherwise). -/
def atoms_gb_dist_change (out : Out) (sim : Sim) (sim_idx : ℕ) : Except Err PyVal := do
  let req_vars_defn ← get_depends "atoms_gb_dist_change" false false {}
  let req_vars := req_vars_defn.map (fun i => dict_from_list out.vars i)
  let getAt : ℕ → Except Err PyVal := fun i => do
    let od ← listIdx req_vars i
    let d ← match od with
      | some d => pure d
      | none => .error .typeError
    let vals ← ofKey "vals" d.vals
    listIdx vals sim_idx
  let initial ← getAt 0
  let final ← getAt 1
  let _sup_type ← getAt 2
  if is_bicrystal sim then npSub final initial else pure .noneV

/-! ## Geometry kernel (`src/geometry.py`) -/

/-- A 3-D column vector of exact rationals. -/
def V3 : Type := Fin 3 → ℚ

/-- A 3×3 matrix of exact rationals; `A r c` is the entry in row `r`,
column `c`, and the three columns are the edge vectors of a
parallelepiped. -/
def M3 : Type := Fin 3 → Fin 3 → ℚ

instance : DecidableEq V3 := fun a b => by unfold V3; exact Fintype.decidablePiFintype a b

instance : DecidableEq M3 := fun a b => by unfold M3; exact Fintype.decidablePiFintype a b

/-- The zero vector. -/
def zeroV : V3 := fun _ => 0

/-- The identity matrix (`np.eye(3)`). -/
def idM : M3 := fun r c => if r = c then 1 else 0

/-- Matrix-vector product. -/
def mulV (A : M3) (v : V3) : V3 := fun r => A r 0 * v 0 + A r 1 * v 1 + A r 2 * v 2

/-- The point of the parallelepiped with edge matrix `B` at parameters `t`
(each edge scaled by its parameter and summed). -/
def boxPoint (B : M3) (t : V3) : V3 := fun r => t 0 * B r 0 + t 1 * B r 1 + t 2 * B r 2

/-- The linear-combination part of corner `j` of `get_box_corners`: the
empty combination, each single edge vector, each pairwise sum, and the full
sum, in the source's column order. -/
def cornerComb (B : M3) (j : Fin 8) : V3 := fun r =>
  match j.val with
  | 0 => 0
  | 1 => B r 0
  | 2 => B r 1
  | 3 => B r 2
  | 4 => B r 0 + B r 1
  | 5 => B r 0 + B r 2
  | 6 => B r 1 + B r 2
  | _ => B r 0 + B r 1 + B r 2

/-- `get_box_corners` for one parallelepiped: the 8 corners, translated by
the origin. -/
def get_box_corners (B : M3) (origin : V3) : Fin 8 → V3 :=
  fun j r => origin r + cornerComb B j r

/-- The `box` argument of the geometry functions: either one parallelepiped
(an `ndim == 2` array, promoted to a batch of one) or a batch. -/
inductive BoxArg where
  | one (B : M3)
  | many (l : List M3)

/-- The `origin` argument of `get_box_xyz`: either one column vector (an
`ndim == 1` array, promoted to one column) or one column per box. -/
inductive OriginArg where
  | one (v : V3)
  | many (l : List V3)

/-- The result of `get_box_xyz`: a 30-point edge path per box, or the six
named 5-point faces (`faces=True`). -/
inductive XyzOut where
  | arr (paths : List (List V3))
  | faceMap (faces : List (String × List (List V3)))

/-- `get_box_xyz(box, origin=None, faces=False)`: checks that one origin is
given per box, then builds the six closed face loops from the corners and
either concatenates them into one path per box or returns them by name. -/
def get_box_xyz (box : BoxArg) (origin : Option OriginArg) (faces : Bool) :
    Except Err XyzOut :=
  let boxes := match box with
    | .one B => [B]
    | .many l => l
  let origins : List V3 := match origin with
    | none => List.replicate boxes.length zeroV
    | some (.one v) => [v]
    | some (.many l) => l
  if origins.length ≠ boxes.length then .error .originCountMismatch
  else
    let c := List.zipWith get_box_corners boxes origins
    let face01a : List (Fin 8) := [0, 1, 4, 2, 0]
    let face01b : List (Fin 8) := [3, 5, 7, 6, 3]
    let face02a : List (Fin 8) := [0, 1, 5, 3, 0]
    let face02b : List (Fin 8) := [2, 4, 7, 6, 2]
    let face12a : List (Fin 8) := [0, 2, 6, 3, 0]
    let face12b : List (Fin 8) := [1, 4, 7, 5, 1]
    let coords := [face01a, face01b, face02a, face02b, face12a, face12b]
    if !faces then
      .ok (.arr (c.map (fun cb => (coords.flatten).map cb)))
    else
      .ok (.faceMap ((List.zip ["face01a", "face01b", "face02a", "face02b", "face12a", "face12b"]
        coords).map (fun p => (p.1, c.map (fun cb => p.2.map cb)))))

/-- Modelled from the spec: `vectors.snap_arr_to_val(arr, 0, tol)` (the
`vectors` module is not under `src/`) snaps every entry within the
tolerance of zero to exactly zero ("snapping near-zero values to exactly
zero within tolerance 1e-12 first"). -/
def snapQ (tol x : ℚ) : ℚ := if |x| < tol then 0 else x

/-- The snap tolerance `1e-12` used by `get_bounding_box`. -/
def bbTol : ℚ := 1 / 10 ^ 12

/-- The determinant of a 3×3 matrix. -/
def det3 (A : M3) : ℚ :=
  A 0 0 * (A 1 1 * A 2 2 - A 1 2 * A 2 1)
  - A 0 1 * (A 1 0 * A 2 2 - A 1 2 * A 2 0)
  + A 0 2 * (A 1 0 * A 2 1 - A 1 1 * A 2 0)

/-- `np.linalg.inv` specialised to the 3×3 case: the adjugate divided by the
determinant. -/
def inv3 (A : M3) : M3 := fun r c =>
  (match r.val, c.val with
   | 0, 0 => A 1 1 * A 2 2 - A 1 2 * A 2 1
   | 0, 1 => A 0 2 * A 2 1 - A 0 1 * A 2 2
   | 0, 2 => A 0 1 * A 1 2 - A 0 2 * A 1 1
   | 1, 0 => A 1 2 * A 2 0 - A 1 0 * A 2 2
   | 1, 1 => A 0 0 * A 2 2 - A 0 2 * A 2 0
   | 1, 2 => A 0 2 * A 1 0 - A 0 0 * A 1 2
   | 2, 0 => A 1 0 * A 2 1 - A 1 1 * A 2 0
   | 2, 1 => A 0 1 * A 2 0 - A 0 0 * A 2 1
   | _, _ => A 0 0 * A 1 1 - A 0 1 * A 1 0) / det3 A

/-- The minimum of a family over the 8 corners (`np.min(..., axis=2)`). -/
def min8 (f : Fin 8 → ℚ) : ℚ :=
  min (min (min (min (min (min (min (f 0) (f 1)) (f 2)) (f 3)) (f 4)) (f 5)) (f 6)) (f 7)

/-- The maximum of a family over the 8 corners (`np.max(..., axis=2)`). -/
def max8 (f : Fin 8 → ℚ) : ℚ :=
  max (max (max (max (max (max (max (f 0) (f 1)) (f 2)) (f 3)) (f 4)) (f 5)) (f 6)) (f 7)

/-- `corners_bound`: the corners of box `B` (taken at the zero origin, as in
`get_bounding_box`) transformed into the `bound_vecs` basis `A`. -/
def cornersBound (A B : M3) : Fin 8 → V3 :=
  fun j => mulV (inv3 A) (get_box_corners B zeroV j)

/-- `mins` for one box: the per-axis minimum corner coordinate in the basis,
snapped to zero within the tolerance. -/
def bbMins (A B : M3) : V3 := fun r => snapQ bbTol (min8 (fun j => cornersBound A B j r))

/-- `maxs` for one box: the per-axis maximum corner coordinate in the basis,
snapped to zero within the tolerance. -/
def bbMaxs (A B : M3) : V3 := fun r => snapQ bbTol (max8 (fun j => cornersBound A B j r))

/-- `mins_floor` for one box (an integer vector). -/
def bbFloor (A B : M3) (r : Fin 3) : ℤ := ⌊bbMins A B r⌋

/-- `maxs_ceil` for one box (an integer vector). -/
def bbCeil (A B : M3) (r : Fin 3) : ℤ := ⌈bbMaxs A B r⌉

/-- `bound_box_bv` for one box: the multiples of the basis vectors forming
the bounding box. -/
def bbBv (A B : M3) (r : Fin 3) : ℤ := bbCeil A B r - bbFloor A B r

/-- `bound_box` for one box: column `c` is `bound_box_bv[c]` times basis
column `c`, snapped entrywise. -/
def bbBox (A B : M3) : M3 := fun r c => snapQ bbTol ((bbBv A B c : ℚ) * A r c)

/-- `bound_box_origin` for one box: the basis applied to `mins_floor`. -/
def bbOrigin (A B : M3) : V3 := fun r => mulV A (fun c => (bbFloor A B c : ℚ)) r

/-- The result record of `get_bounding_box`, one entry per input box. -/
structure BBOut where
  bound_box : List M3
  bound_box_origin : List V3
  bound_box_bv : List (Fin 3 → ℤ)
  bound_box_origin_bv : List (Fin 3 → ℤ)

/-- `get_bounding_box(box, bound_vecs=None)`: bounding boxes of a batch of
parallelepipeds, axis-aligned in the given basis (identity by default). -/
def get_bounding_box (box : List M3) (bound_vecs : Option M3) : BBOut :=
  let A := bound_vecs.getD idM
  { bound_box := box.map (fun B => bbBox A B)
    bound_box_origin := box.map (fun B => bbOrigin A B)
    bound_box_bv := box.map (fun B => bbBv A B)
    bound_box_origin_bv := box.map (fun B => bbFloor A B) }

/-- Membership of a point in the parallelepiped spanned by the columns of
`B` at `origin`: some parameter vector in the unit cube reaches it. -/
def inBox (origin : V3) (B : M3) (p : V3) : Prop :=
  ∃ s : V3, (∀ i, 0 ≤ s i ∧ s i ≤ 1) ∧ ∀ r, p r = origin r + boxPoint B s r

/-- The base definition dict `d` built by `get_depends` for a compute name
before any branch-specific keys are added (`id` present when `inc_id`). -/
def baseDefn (nm : String) (inc_id : Bool) : Defn :=
  if inc_id then { type := some "compute", name := some nm, id := some nm }
  else { type := some "compute", name := some nm }

/-- The definition built by the `energy` branch of `get_depends`:
`energy_src` always present, `opt_step` present only when the keyword was
given and not `None`. -/
def energyDefnOf (es : String) (os : Option PyVal) (inc_id : Bool) : Defn :=
  let d := { baseDefn "energy" inc_id with energy_src := some es }
  let osv := os.getD .noneV
  if osv ≠ .noneV then { d with opt_step := some osv } else d

/-- The definition built by the `gamma_surface_info` branch of
`get_depends`. -/
def gsiDefnOf (inm : String) (inc_id : Bool) : Defn :=
  { baseDefn "gamma_surface_info" inc_id with info_name := some inm }

/-- The definition built by the `energy_per_atom` branch of `get_depends`. -/
def epaDefnOf (es : String) (os : PyVal) (inc_id : Bool) : Defn :=
  { baseDefn "energy_per_atom" inc_id with energy_src := some es, opt_step := some os }

/-- The definition built by the `gb_energy` branch of `get_depends`. -/
def gbDefnOf (es : String) (os : PyVal) (sid : List String) (u : String) (inc_id : Bool) : Defn :=
  { baseDefn "gb_energy" inc_id with
    energy_src := some es
    opt_step := some os
    series_id := some sid
    unit := some u }

/-- The definition built by the `master_gamma` branch of `get_depends`. -/
def mgDefnOf (es : String) (os : PyVal) (sid : List String) (u : String) (inc_id : Bool) : Defn :=
  { baseDefn "master_gamma" inc_id with
    energy_src := some es
    opt_step := some os
    series_id := some sid
    unit := some u }

/-- The batch of boxes denoted by a `box` argument: an `ndim == 2` array is
promoted to a batch of one (`box[np.newaxis]`). -/
def boxesOf (box : BoxArg) : List M3 :=
  match box with
  | .one B => [B]
  | .many l => l

/-- The origin columns denoted by an explicit `origin` argument: an
`ndim == 1` array is promoted to one column (`origin[:, np.newaxis]`). -/
def originsOf (o : OriginArg) : List V3 :=
  match o with
  | .one v => [v]
  | .many l => l

/-- The input box expressed in the `bound_vecs` basis: column `c` is
`bound_vecs_inv @ box` applied to edge vector `c`. -/
def basisBox (A B : M3) : M3 := fun r c => mulV (inv3 A) (fun k => B k c) r

/-- The orthogonal example box `[[2,0,0],[0,2,0],[0,0,2]]` of the spec. -/
def twoI : M3 := fun r c => if r = c then 2 else 0

/-- A box whose first edge vector is `(-10^-13, 0, 0)`: its negative
extent along axis 0 is inside the snap tolerance `1e-12`. -/
def c8Box : M3 := fun r c =>
  if c = 0 then (if r = 0 then -(1 / 10 ^ 13) else 0)
  else if r = c then 1 else 0

/-- The corner `(-10^-13, 0, 0)` of `c8Box`. -/
def c8Pt : V3 := fun r => if r = 0 then -(1 / 10 ^ 13) else 0

/-! ## Theorems -/

theorem exBind_ok {α β : Type} (a : α) (f : α → Except Err β) :
    (Except.ok a : Except Err α) >>= f = f a := rfl

theorem exBind_err {α β : Type} (e : Err) (f : α → Except Err β) :
    (Except.error e : Except Err α) >>= f = Except.error e := rfl

theorem exBind_eq_ok {α β : Type} {x : Except Err α} {f : α → Except Err β} {b : β} :
    x >>= f = .ok b ↔ ∃ a, x = .ok a ∧ f a = .ok b := by
  cases x <;> simp [exBind_ok, exBind_err]

/-- C1: resolving the `gb_energy` compute with any parameter set
(`energy_src`, `opt_step`, `series_id`, `unit`) yields exactly the sequence
`[energy (same energy_src/opt_step), num_atoms, gb_area, supercell_type,
gb_energy]`, in that order, with no definition repeated. -/
theorem claim_C1_gb_energy_resolution (es : String) (os : PyVal) (sid : List String)
    (u : String) (inc_id inc_val : Bool) :
    ∃ L, get_depends "gb_energy" inc_id inc_val
      { energy_src := some es, opt_step := some os, series_id := some sid, unit := some u } =
      .ok L ∧
    L = [ { type := some "compute", name := some "energy",
            id := if inc_id then some "energy" else none,
            energy_src := some es,
            opt_step := if os ≠ .noneV then some os else none,
            vals := if inc_val then some [] else none },
          { type := some "compute", name := some "num_atoms",
            id := if inc_id then some "num_atoms" else none,
            vals := if inc_val then some [] else none },
          { predefined_gb_area with vals := if inc_val then some [] else none },
          { predefined_sup_type with vals := if inc_val then some [] else none },
          { type := some "compute", name := some "gb_energy",
            id := if inc_id then some "gb_energy" else none,
            energy_src := some es, opt_step := some os, series_id := some sid,
            unit := some u, vals := if inc_val then some [] else none } ] ∧
    L.Nodup ∧
    L.map Defn.name = [some "energy", some "num_atoms", some "gb_area",
                       some "supercell_type", some "gb_energy"] := by
  refine ⟨_, rfl, ?_, ?_, ?_⟩ <;>
    by_cases h : os = .noneV <;> by_cases hi : inc_id <;> by_cases hv : inc_val <;>
      simp [get_depends, get_dependsAux, allowed_computes, single_compute_names,
        multi_compute_names, dict_from_list, matchesQuery, fieldMatch, setValsPass,
        predefined_gb_area, predefined_sup_type, ofKey, exBind_ok, h, hi, hv, Defn.mk.injEq]

/-- No `UnknownCompute` error: the result is anything but
`Err.unknownCompute`. -/
def NoUC {α : Type} (x : Except Err α) : Prop :=
  ∀ s, x ≠ .error (.unknownCompute s)

theorem noUC_ok {α : Type} (a : α) : NoUC (Except.ok a : Except Err α) := by
  intro s h
  exact Except.noConfusion h

theorem noUC_error {α : Type} (e : Err) (he : ∀ s, e ≠ .unknownCompute s) :
    NoUC (Except.error e : Except Err α) := by
  intro s h
  injection h with h2
  exact he s h2

theorem noUC_bind {α β : Type} {x : Except Err α} {f : α → Except Err β}
    (hx : NoUC x) (hf : ∀ a, NoUC (f a)) : NoUC (x >>= f) := by
  intro s h
  cases x with
  | ok a => exact hf a s (by rwa [exBind_ok] at h)
  | error e =>
    rw [exBind_err] at h
    injection h with h2
    exact hx s (by rw [h2])

theorem noUC_ofKey {α : Type} (k : String) (o : Option α) : NoUC (ofKey k o) := by
  cases o with
  | none => exact noUC_error _ (by intro s h; cases h)
  | some v => exact noUC_ok v

theorem get_dependsAux_noUC (fuel : ℕ) :
    ∀ (name : String), name ∈ allowed_computes →
      ∀ inc_id inc_val kw, NoUC (get_dependsAux fuel name inc_id inc_val kw) := by
  induction fuel with
  | zero =>
    intro name _ i v kw
    exact noUC_error _ (by intro s h; cases h)
  | succ n ih =>
    intro name h i v kw
    rw [get_dependsAux]
    rw [if_neg (by simp [h])]
    repeat'
      first
      | exact noUC_ok _
      | exact noUC_ofKey _ _
      | exact ih _ (by decide) _ _ _
      | exact fun p => match p with
          | (_, _) => noUC_ok _
      | apply noUC_bind
      | split
      | intro _

/-- C5: dependency resolution of a compute name outside the registry fails
with `UnknownCompute` naming that compute, and resolution of a registered
name never raises `UnknownCompute`, whatever the other arguments. -/
theorem claim_C5_unknown_compute (name : String) (inc_id inc_val : Bool) (kw : Kwargs) :
    (name ∉ allowed_computes →
      get_depends name inc_id inc_val kw = .error (.unknownCompute name)) ∧
    (name ∈ allowed_computes →
      ∀ s, get_depends name inc_id inc_val kw ≠ .error (.unknownCompute s)) := by
  constructor
  · intro h
    rw [get_depends, get_dependsAux, if_pos (by simp [h])]
  · intro h s
    exact get_dependsAux_noUC 3 name h inc_id inc_val kw s

/-- Witness for C5: `'foo'` is rejected with `UnknownCompute`, while the
registered name `'num_atoms'` never produces that error. -/
theorem claim_C5_witness :
    get_depends "foo" true true {} = .error (.unknownCompute "foo") ∧
    ∀ s, get_depends "num_atoms" true true {} ≠ .error (.unknownCompute s) :=
  ⟨(claim_C5_unknown_compute "foo" true true {}).1 (by decide),
   (claim_C5_unknown_compute "num_atoms" true true {}).2 (by decide)⟩

theorem gdA_num_atoms (n : ℕ) (i v : Bool) (kw : Kwargs) :
    get_dependsAux (n + 1) "num_atoms" i v kw = .ok (setValsPass v [baseDefn "num_atoms" i]) := by
  cases i <;> rfl

theorem gdA_gb_area (n : ℕ) (i v : Bool) (kw : Kwargs) :
    get_dependsAux (n + 1) "gb_area" i v kw = .ok (setValsPass v [baseDefn "gb_area" i]) := by
  cases i <;> rfl

theorem gdA_supercell_type (n : ℕ) (i v : Bool) (kw : Kwargs) :
    get_dependsAux (n + 1) "supercell_type" i v kw =
      .ok (setValsPass v [baseDefn "supercell_type" i]) := by
  cases i <;> rfl

theorem gdA_gb_thickness (n : ℕ) (i v : Bool) (kw : Kwargs) :
    get_dependsAux (n + 1) "gb_thickness" i v kw =
      .ok (setValsPass v [baseDefn "gb_thickness" i]) := by
  cases i <;> rfl

theorem gdA_gb_boundary_vac (n : ℕ) (i v : Bool) (kw : Kwargs) :
    get_dependsAux (n + 1) "gb_boundary_vac" i v kw =
      .ok (setValsPass v [baseDefn "gb_boundary_vac" i]) := by
  cases i <;> rfl

theorem gdA_gb_dist_initial (n : ℕ) (i v : Bool) (kw : Kwargs) :
    get_dependsAux (n + 1) "atoms_gb_dist_initial" i v kw =
      .ok (setValsPass v [baseDefn "atoms_gb_dist_initial" i]) := by
  cases i <;> rfl

theorem gdA_gb_dist_final (n : ℕ) (i v : Bool) (kw : Kwargs) :
    get_dependsAux (n + 1) "atoms_gb_dist_final" i v kw =
      .ok (setValsPass v [baseDefn "atoms_gb_dist_final" i]) := by
  cases i <;> rfl

theorem gdA_energy (n : ℕ) (i v : Bool) (kw : Kwargs) :
    get_dependsAux (n + 1) "energy" i v kw =
      match kw.energy_src with
      | none => .error (.keyError "energy_src")
      | some es => .ok (setValsPass v [energyDefnOf es kw.opt_step i]) := by
  rcases kw with ⟨es, os, sid, u, inm⟩
  cases es <;> cases i <;> rfl

theorem gdA_gsi (n : ℕ) (i v : Bool) (kw : Kwargs) :
    get_dependsAux (n + 1) "gamma_surface_info" i v kw =
      match kw.info_name with
      | none => .error (.keyError "info_name")
      | some inm => .ok (setValsPass v [gammaSeriesDefn "csi_idx" i, gammaSeriesDefn "grid_idx" i,
          gammaSeriesDefn "point_idx" i, gsiDefnOf inm i]) := by
  rcases kw with ⟨es, os, sid, u, inm⟩
  cases inm <;> cases i <;> rfl

theorem gdA_adc (n : ℕ) (i v : Bool) (kw : Kwargs) :
    get_dependsAux (n + 1) "atoms_gb_dist_change" i v kw =
      .ok (setValsPass v [predefined_gb_dist_initial, predefined_gb_dist_final,
        predefined_sup_type, baseDefn "atoms_gb_dist_change" i]) := by
  cases i <;> rfl

theorem gdA_epa (n : ℕ) (i v : Bool) (kw : Kwargs) :
    get_dependsAux (n + 2) "energy_per_atom" i v kw =
      match kw.energy_src with
      | none => .error (.keyError "energy_src")
      | some es =>
        match kw.opt_step with
        | none => .error (.keyError "opt_step")
        | some os => .ok (setValsPass v [baseDefn "num_atoms" i, energyDefnOf es (some os) i,
            epaDefnOf es os i]) := by
  rcases kw with ⟨es, os, sid, u, inm⟩
  cases es <;> cases os <;> try rfl
  all_goals (rename_i osv; cases osv <;> cases i <;> cases v <;> rfl)

theorem gdA_gb_energy (n : ℕ) (i v : Bool) (kw : Kwargs) :
    get_dependsAux (n + 2) "gb_energy" i v kw =
      match kw.energy_src with
      | none => .error (.keyError "energy_src")
      | some es =>
        match kw.opt_step with
        | none => .error (.keyError "opt_step")
        | some os =>
          match kw.series_id with
          | none => .error (.keyError "series_id")
          | some sid =>
            match kw.unit with
            | none => .error (.keyError "unit")
            | some u => .ok (setValsPass v [energyDefnOf es (some os) i, baseDefn "num_atoms" i,
                predefined_gb_area, predefined_sup_type, gbDefnOf es os sid u i]) := by
  rcases kw with ⟨es, os, sid, u, inm⟩
  cases es <;> cases os <;> cases sid <;> cases u <;> try rfl
  all_goals (rename_i esv osv sidv uv; cases osv <;> cases i <;> cases v <;> rfl)


theorem exPure {α : Type} (a : α) : (pure a : Except Err α) = .ok a := rfl

theorem setValsPass_uniform (v : Bool) (l : List Defn)
    (h : ∀ d ∈ l, d.vals = none ∨ d.vals = some []) :
    ∀ d ∈ setValsPass v l, d.vals = if v then some ([] : List PyVal) else none := by
  intro d hd
  rw [setValsPass, List.mem_map] at hd
  obtain ⟨d', hd', rfl⟩ := hd
  rcases h d' hd' with h0 | h0 <;> cases v <;> simp [h0]

theorem valsFromList {v : Bool} {L l : List Defn} (h : setValsPass v L = l)
    (hL : ∀ x ∈ L, x.vals = none) :
    ∀ d ∈ l, d.vals = if v then some ([] : List PyVal) else none := by
  intro d hd
  rw [← h] at hd
  exact setValsPass_uniform v L (fun x hx => .inl (hL x hx)) d hd

@[simp] theorem vals_baseDefn (nm : String) (i : Bool) : (baseDefn nm i).vals = none := by
  unfold baseDefn
  split <;> rfl

@[simp] theorem vals_energyDefnOf (es : String) (os : Option PyVal) (i : Bool) :
    (energyDefnOf es os i).vals = none := by
  simp only [energyDefnOf]
  split <;> exact vals_baseDefn _ _

@[simp] theorem vals_gsiDefnOf (inm : String) (i : Bool) : (gsiDefnOf inm i).vals = none :=
  vals_baseDefn _ _

@[simp] theorem vals_epaDefnOf (es : String) (os : PyVal) (i : Bool) :
    (epaDefnOf es os i).vals = none :=
  vals_baseDefn _ _

@[simp] theorem vals_gbDefnOf (es : String) (os : PyVal) (sid : List String) (u : String)
    (i : Bool) : (gbDefnOf es os sid u i).vals = none :=
  vals_baseDefn _ _

@[simp] theorem vals_mgDefnOf (es : String) (os : PyVal) (sid : List String) (u : String)
    (i : Bool) : (mgDefnOf es os sid u i).vals = none :=
  vals_baseDefn _ _

@[simp] theorem vals_gammaSeriesDefn (nm : String) (i : Bool) :
    (gammaSeriesDefn nm i).vals = none := by
  simp only [gammaSeriesDefn]
  split <;> rfl

@[simp] theorem vals_predefined_gb_area : predefined_gb_area.vals = none := rfl

@[simp] theorem vals_predefined_sup_type : predefined_sup_type.vals = none := rfl

@[simp] theorem vals_predefined_gb_boundary_vac : predefined_gb_boundary_vac.vals = none := rfl

@[simp] theorem vals_predefined_gb_dist_initial : predefined_gb_dist_initial.vals = none := rfl

@[simp] theorem vals_predefined_gb_dist_final : predefined_gb_dist_final.vals = none := rfl


theorem errNeOk {α : Type} {x : Except Err α} (e : Err) {a : α}
    (hx : x = .error e) (h : x = .ok a) : False :=
  Except.noConfusion (hx.symm.trans h)

theorem memPassTrue {L : List Defn} (hL : ∀ x ∈ L, x.vals = none) {l : List Defn}
    (h : setValsPass true L = l) {x : Defn} (hx : x ∈ l) :
    x.vals = none ∨ x.vals = some [] :=
  .inr (by simpa using valsFromList h hL x hx)

theorem allMem_append {α : Type} {P : α → Prop} {l1 l2 : List α}
    (h1 : ∀ x ∈ l1, P x) (h2 : ∀ x ∈ l2, P x) : ∀ x ∈ l1 ++ l2, P x := by
  intro x hx
  rcases List.mem_append.1 hx with h | h
  exacts [h1 x h, h2 x h]

theorem allMem_singleton {α : Type} {P : α → Prop} {a : α} (h : P a) : ∀ x ∈ [a], P x := by
  intro x hx
  rw [List.mem_singleton] at hx
  exact hx ▸ h

theorem allMem_dedup {out : List Defn} {d : Defn} {P : Defn → Prop}
    (h : ∀ x ∈ out ++ [d], P x) :
    ∀ x ∈ (match dict_from_list out d with
            | none => out ++ [d]
            | some _ => out), P x := by
  cases hdl : dict_from_list out d <;> intro x hx
  · exact h x hx
  · exact h x (List.mem_append_left _ hx)

theorem valsNone_gbraw (esv : String) (osv : PyVal) (sidv : List String) (uv : String)
    (i : Bool) :
    ∀ y ∈ [energyDefnOf esv (some osv) i, baseDefn "num_atoms" i, predefined_gb_area,
      predefined_sup_type, gbDefnOf esv osv sidv uv i], y.vals = none := by
  intro y hy
  simp only [List.mem_cons, List.not_mem_nil, or_false] at hy
  rcases hy with rfl | rfl | rfl | rfl | rfl <;> simp

theorem valsNone_gsiraw (inm : String) (i : Bool) :
    ∀ y ∈ [gammaSeriesDefn "csi_idx" i, gammaSeriesDefn "grid_idx" i,
      gammaSeriesDefn "point_idx" i, gsiDefnOf inm i], y.vals = none := by
  intro y hy
  simp only [List.mem_cons, List.not_mem_nil, or_false] at hy
  rcases hy with rfl | rfl | rfl | rfl <;> simp

set_option maxHeartbeats 1000000 in
/-- C3: whenever dependency resolution succeeds, every returned definition
carries `vals = []` when `inc_val` is set (none of them has pre-existing
values in a fresh resolution) and no returned definition carries a `vals`
key when `inc_val` is unset. -/
theorem claim_C3_vals_toggle (name : String) (i v : Bool) (kw : Kwargs) (l : List Defn)
    (hl : get_depends name i v kw = .ok l) :
    ∀ d ∈ l, d.vals = if v then some ([] : List PyVal) else none := by
  by_cases hmem : name ∈ allowed_computes
  case neg =>
    rw [get_depends, get_dependsAux, if_pos (by simpa using hmem)] at hl
    exact absurd hl (by simp)
  have hmem' : name = "num_atoms" ∨ name = "energy" ∨ name = "energy_per_atom" ∨
      name = "gb_area" ∨ name = "supercell_type" ∨ name = "gb_thickness" ∨
      name = "gb_boundary_vac" ∨ name = "atoms_gb_dist_initial" ∨
      name = "atoms_gb_dist_final" ∨ name = "atoms_gb_dist_change" ∨
      name = "gb_energy" ∨ name = "gamma_surface_info" ∨ name = "master_gamma" := by
    simpa [allowed_computes, single_compute_names, multi_compute_names] using hmem
  rcases hmem' with rfl | rfl | rfl | rfl | rfl | rfl | rfl | rfl | rfl | rfl | rfl | rfl | rfl
  next =>
    have h := (gdA_num_atoms 2 i v kw).symm.trans hl
    exact valsFromList (by injection h) (by intro x hx; fin_cases hx <;> simp)
  next =>
    have h := (gdA_energy 2 i v kw).symm.trans hl
    split at h
    · exact absurd h (by simp)
    · exact valsFromList (by injection h) (by intro x hx; fin_cases hx <;> simp)
  next =>
    have h := (gdA_epa 1 i v kw).symm.trans hl
    split at h
    · exact absurd h (by simp)
    split at h
    · exact absurd h (by simp)
    exact valsFromList (by injection h) (by intro x hx; fin_cases hx <;> simp)
  next =>
    have h := (gdA_gb_area 2 i v kw).symm.trans hl
    exact valsFromList (by injection h) (by intro x hx; fin_cases hx <;> simp)
  next =>
    have h := (gdA_supercell_type 2 i v kw).symm.trans hl
    exact valsFromList (by injection h) (by intro x hx; fin_cases hx <;> simp)
  next =>
    have h := (gdA_gb_thickness 2 i v kw).symm.trans hl
    exact valsFromList (by injection h) (by intro x hx; fin_cases hx <;> simp)
  next =>
    have h := (gdA_gb_boundary_vac 2 i v kw).symm.trans hl
    exact valsFromList (by injection h) (by intro x hx; fin_cases hx <;> simp)
  next =>
    have h := (gdA_gb_dist_initial 2 i v kw).symm.trans hl
    exact valsFromList (by injection h) (by intro x hx; fin_cases hx <;> simp)
  next =>
    have h := (gdA_gb_dist_final 2 i v kw).symm.trans hl
    exact valsFromList (by injection h) (by intro x hx; fin_cases hx <;> simp)
  next =>
    have h := (gdA_adc 2 i v kw).symm.trans hl
    exact valsFromList (by injection h) (by intro x hx; fin_cases hx <;> simp)
  next =>
    have h := (gdA_gb_energy 1 i v kw).symm.trans hl
    split at h
    · exact absurd h (by simp)
    split at h
    · exact absurd h (by simp)
    split at h
    · exact absurd h (by simp)
    split at h
    · exact absurd h (by simp)
    exact valsFromList (by injection h) (by intro x hx; fin_cases hx <;> simp)
  next =>
    have h := (gdA_gsi 2 i v kw).symm.trans hl
    split at h
    · exact absurd h (by simp)
    · exact valsFromList (by injection h) (by intro x hx; fin_cases hx <;> simp)
  next =>
    rcases kw with ⟨es, os, sid, u, inm⟩
    cases es with
    | none =>
      exact (errNeOk (.keyError "energy_src") rfl hl).elim
    | some esv =>
    cases os with
    | none =>
      exact (errNeOk (.keyError "opt_step") rfl hl).elim
    | some osv =>
    cases sid with
    | none =>
      exact (errNeOk (.keyError "series_id") rfl hl).elim
    | some sidv =>
    cases u with
    | none =>
      exact (errNeOk (.keyError "unit") rfl hl).elim
    | some uv =>
    have hl2 : get_dependsAux (2 + 1) "master_gamma" i v
        ⟨some esv, some osv, some sidv, some uv, inm⟩ = .ok l := hl
    rw [get_dependsAux] at hl2
    rw [if_neg (by decide)] at hl2
    rw [if_neg (by decide), if_neg (by decide), if_neg (by decide), if_pos rfl] at hl2
    simp only [ofKey, exBind_ok, exBind_eq_ok, exPure, Except.ok.injEq,
      exists_eq_left'] at hl2
    obtain ⟨l1, h1, hl2⟩ := hl2
    obtain ⟨l2, h2, hl0⟩ := hl2
    obtain ⟨l3, h3, hl2⟩ := hl0
    obtain ⟨l4, h4, hl0⟩ := hl2
    obtain ⟨l5, h5, hl2⟩ := hl0
    obtain ⟨l6, h6, hl0⟩ := hl2
    obtain ⟨l7, h7, hl2⟩ := hl0
    obtain ⟨l8, h8, hl0⟩ := hl2
    have h1b := (gdA_gb_energy 0 i true
      ⟨some esv, some osv, some sidv, some uv, none⟩).symm.trans h1
    have h2b := (gdA_gsi 1 i true ⟨none, none, none, none, some "row_idx"⟩).symm.trans h2
    have h3b := (gdA_gsi 1 i true ⟨none, none, none, none, some "col_idx"⟩).symm.trans h3
    have h4b := (gdA_gsi 1 i true ⟨none, none, none, none, some "x_std_vals"⟩).symm.trans h4
    have h5b := (gdA_gsi 1 i true ⟨none, none, none, none, some "y_std_vals"⟩).symm.trans h5
    have h6b := (gdA_gsi 1 i true ⟨none, none, none, none, some "x_frac_vals"⟩).symm.trans h6
    have h7b := (gdA_gsi 1 i true ⟨none, none, none, none, some "y_frac_vals"⟩).symm.trans h7
    have h8b := (gdA_gsi 1 i true ⟨none, none, none, none, some "grid_shape"⟩).symm.trans h8
    simp only [Except.ok.injEq] at h1b h2b h3b h4b h5b h6b h7b h8b
    intro d hd
    rw [← hl0] at hd
    refine setValsPass_uniform v _ ?_ d hd
    refine allMem_dedup ?_
    refine allMem_append (allMem_append (allMem_append (allMem_append (allMem_append
      (allMem_append (allMem_append (allMem_append (allMem_append
        (fun x hx => memPassTrue (valsNone_gbraw esv osv sidv uv i) h1b hx)
        (fun x hx => memPassTrue (valsNone_gsiraw "row_idx" i) h2b hx))
        (fun x hx => memPassTrue (valsNone_gsiraw "col_idx" i) h3b hx))
        (fun x hx => memPassTrue (valsNone_gsiraw "x_std_vals" i) h4b hx))
        (fun x hx => memPassTrue (valsNone_gsiraw "y_std_vals" i) h5b hx))
        (fun x hx => memPassTrue (valsNone_gsiraw "x_frac_vals" i) h6b hx))
        (fun x hx => memPassTrue (valsNone_gsiraw "y_frac_vals" i) h7b hx))
        (fun x hx => memPassTrue (valsNone_gsiraw "grid_shape" i) h8b hx))
        (allMem_singleton (.inl rfl)))
      (allMem_singleton (.inl (by cases i <;> rfl)))



theorem pyIndex_no_ies (v : PyVal) (k : ℤ) (s m : String) :
    pyIndex v k ≠ .error (.invalidEnergySource s m) := by
  cases v <;> simp only [pyIndex]
  case vecV l =>
    split
    · simp
    · split <;> simp
  all_goals simp

/-- C4: for a `castep` or `lammps` simulation, the `energy` compute raises
`InvalidEnergySource` exactly when `energy_src` is outside the
method-specific allowed set (`castep`: `final_energy`/`final_fenergy`/
`final_zenergy`; `lammps`: `final_energy` only); with a valid source and no
`opt_step` it returns the stored value unchanged; a non-integer `opt_step`
raises `InvalidArgument`; an integer `opt_step` indexes the per-step energy
sequence. -/
theorem claim_C4_energy_errors (out : Out) (sim : Sim) (sim_idx : ℕ) (energy_src : String)
    (hm : sim.method = "castep" ∨ sim.method = "lammps") :
    (sim.method = "castep" →
      (allowed_en_srcs sim.method).getD [] = ["final_energy", "final_fenergy", "final_zenergy"]) ∧
    (sim.method = "lammps" → (allowed_en_srcs sim.method).getD [] = ["final_energy"]) ∧
    (∀ opt_step,
      energyCompute out sim sim_idx energy_src opt_step =
          .error (.invalidEnergySource energy_src sim.method) ↔
        energy_src ∉ (allowed_en_srcs sim.method).getD []) ∧
    (∀ e, energy_src ∈ (allowed_en_srcs sim.method).getD [] →
      sim.results energy_src = some e →
      energyCompute out sim sim_idx energy_src .noneV = .ok e) ∧
    (∀ e os, energy_src ∈ (allowed_en_srcs sim.method).getD [] →
      sim.results energy_src = some e → os.isInt = false → os ≠ .noneV →
      energyCompute out sim sim_idx energy_src os = .error .invalidArgument) ∧
    (∀ e k, energy_src ∈ (allowed_en_srcs sim.method).getD [] →
      sim.results energy_src = some e →
      energyCompute out sim sim_idx energy_src (.intV k) = pyIndex e k) := by
  rcases hm with hm | hm <;>
    (refine ⟨fun hc => by rw [hc]; rfl, fun hc => by rw [hc]; rfl, ?_, ?_, ?_, ?_⟩ <;>
      simp [energyCompute, allowed_en_srcs, hm, ofKey, exBind_ok])
  · intro os
    constructor
    · intro h
      by_contra hsrc
      have hd : energy_src = "final_energy" ∨ energy_src = "final_fenergy" ∨
          energy_src = "final_zenergy" := by tauto
      have heq := h hd
      rcases hres : sim.results energy_src with _ | e <;>
        simp [hres, exBind_ok, exBind_err] at heq
      rcases os with k | q | st | _ | lv <;> try simp [exPure] at heq
      exact pyIndex_no_ies _ _ _ _ heq
    · intro h hmem
      exact absurd hmem (by tauto)
  · intro e hmem hres
    simp [hmem, hres, exBind_ok, exBind_err]
  · intro e os hmem hres h1 h2
    try simp only [hmem] at hres
    rcases os with k | q | st | _ | lv <;> simp_all [PyVal.isInt, exBind_ok, exBind_err]
  · intro e k hmem hres
    try simp only [hmem] at hres
    simp [hmem, hres, exBind_ok, exBind_err]
  · intro os
    constructor
    · intro h
      by_contra hsrc
      have hd : energy_src = "final_energy" := by tauto
      have heq := h hd
      rcases hres : sim.results energy_src with _ | e <;>
        simp [hres, exBind_ok, exBind_err] at heq
      rcases os with k | q | st | _ | lv <;> try simp [exPure] at heq
      exact pyIndex_no_ies _ _ _ _ heq
    · intro h hmem
      exact absurd hmem (by tauto)
  · intro e hmem hres
    try simp only [hmem] at hres
    simp [hmem, hres, exBind_ok, exBind_err]
  · intro e os hmem hres h1 h2
    try simp only [hmem] at hres
    rcases os with k | q | st | _ | lv <;> simp_all [PyVal.isInt, exBind_ok, exBind_err]
  · intro e k hmem hres
    try simp only [hmem] at hres
    simp [hmem, hres, exBind_ok, exBind_err]

/-- Witness for C4: for a `lammps` simulation storing `final_energy = -500`,
a valid source returns the stored value, the string `"0"` as `opt_step`
raises `InvalidArgument`, and `final_fenergy` raises `InvalidEnergySource`. -/
theorem claim_C4_witness :
    (energyCompute ⟨[], [], [], [], []⟩
      { method := "lammps", base_structure_type := "BulkCrystal", meta_supercell_type := none,
        results := fun k => if k = "final_energy" then some (.floatV (-500)) else none }
      0 "final_energy" .noneV = .ok (.floatV (-500))) ∧
    (energyCompute ⟨[], [], [], [], []⟩
      { method := "lammps", base_structure_type := "BulkCrystal", meta_supercell_type := none,
        results := fun k => if k = "final_energy" then some (.floatV (-500)) else none }
      0 "final_energy" (.strV "0") = .error .invalidArgument) ∧
    (energyCompute ⟨[], [], [], [], []⟩
      { method := "lammps", base_structure_type := "BulkCrystal", meta_supercell_type := none,
        results := fun k => if k = "final_energy" then some (.floatV (-500)) else none }
      0 "final_fenergy" .noneV = .error (.invalidEnergySource "final_fenergy" "lammps")) := by
  refine ⟨?_, ?_, ?_⟩
  · exact (claim_C4_energy_errors ⟨[], [], [], [], []⟩ _ 0 "final_energy"
      (Or.inr rfl)).2.2.2.1 _ (by decide) rfl
  · exact (claim_C4_energy_errors ⟨[], [], [], [], []⟩ _ 0 "final_energy"
      (Or.inr rfl)).2.2.2.2.1 _ _ (by decide) rfl rfl (by decide)
  · exact ((claim_C4_energy_errors ⟨[], [], [], [], []⟩ _ 0 "final_fenergy"
      (Or.inr rfl)).2.2.1 .noneV).2 (by decide)

/-- C6: `atoms_gb_dist_change` re-resolves its dependency definitions, looks
the initial distances, final distances and supercell type up at the given
simulation index, and returns the elementwise difference `final - initial`
for a bicrystal simulation and `None` otherwise. -/
theorem claim_C6_gb_dist_change (out : Out) (sim : Sim) (sim_idx : ℕ)
    (D0 D1 D2 : Defn) (V0 V1 V2 : List PyVal) (l0 l1 : List ℚ) (v2 : PyVal)
    (h0 : dict_from_list out.vars predefined_gb_dist_initial = some D0)
    (h1 : dict_from_list out.vars predefined_gb_dist_final = some D1)
    (h2 : dict_from_list out.vars predefined_sup_type = some D2)
    (hv0 : D0.vals = some V0) (hv1 : D1.vals = some V1) (hv2 : D2.vals = some V2)
    (hg0 : V0[sim_idx]? = some (.vecV l0)) (hg1 : V1[sim_idx]? = some (.vecV l1))
    (hg2 : V2[sim_idx]? = some v2) (hlen : l1.length = l0.length) :
    atoms_gb_dist_change out sim sim_idx =
      .ok (if is_bicrystal sim then .vecV (List.zipWith (fun p q => p - q) l1 l0)
           else .noneV) := by
  have hrv : get_depends "atoms_gb_dist_change" false false {} =
      .ok [predefined_gb_dist_initial, predefined_gb_dist_final, predefined_sup_type,
           { type := some "compute", name := some "atoms_gb_dist_change" }] := rfl
  by_cases hb : is_bicrystal sim <;>
    simp [atoms_gb_dist_change, hrv, exBind_ok, listIdx, h0, h1, h2, ofKey, hv0, hv1, hv2,
      hg0, hg1, hg2, npSub, hlen, hb]

/-- Witness for C6: with stored initial distances `[1, 2]`, final distances
`[3, 5]` and a bicrystal simulation, the change is `[2, 3]`. -/
theorem claim_C6_witness :
    atoms_gb_dist_change
      ⟨[{ predefined_gb_dist_initial with vals := some [.vecV [1, 2]] },
        { predefined_gb_dist_final with vals := some [.vecV [3, 5]] },
        { predefined_sup_type with vals := some [.strV "bicrystal"] }], [], [], [], []⟩
      { method := "lammps", base_structure_type := "CSLBicrystal",
        meta_supercell_type := some ["bicrystal"], results := fun _ => none } 0 =
      .ok (.vecV [2, 3]) := by
  have h := claim_C6_gb_dist_change
    ⟨[{ predefined_gb_dist_initial with vals := some [.vecV [1, 2]] },
      { predefined_gb_dist_final with vals := some [.vecV [3, 5]] },
      { predefined_sup_type with vals := some [.strV "bicrystal"] }], [], [], [], []⟩
    { method := "lammps", base_structure_type := "CSLBicrystal",
      meta_supercell_type := some ["bicrystal"], results := fun _ => none } 0
    { predefined_gb_dist_initial with vals := some [.vecV [1, 2]] }
    { predefined_gb_dist_final with vals := some [.vecV [3, 5]] }
    { predefined_sup_type with vals := some [.strV "bicrystal"] }
    [.vecV [1, 2]] [.vecV [3, 5]] [.strV "bicrystal"] [1, 2] [3, 5] (.strV "bicrystal")
    rfl rfl rfl rfl rfl rfl rfl rfl rfl rfl
  rw [h]
  norm_num [is_bicrystal]

theorem pyDiv_toQ {a b : PyVal} {x y : ℚ} (ha : a.toQ = some x) (hb : b.toQ = some y)
    (hy : y ≠ 0) : pyDiv a b = .ok (.floatV (x / y)) := by
  simp [pyDiv, ha, hb, hy]

theorem pyMul_floatL (x : ℚ) {b : PyVal} {y : ℚ} (hb : b.toQ = some y) :
    pyMul (.floatV x) b = .ok (.floatV (x * y)) := by
  cases b <;> simp [PyVal.toQ] at hb <;> simp [pyMul, PyVal.toQ, hb]

theorem pySub_floatR {a : PyVal} {x : ℚ} (ha : a.toQ = some x) (y : ℚ) :
    pySub a (.floatV y) = .ok (.floatV (x - y)) := by
  cases a <;> simp [PyVal.toQ] at ha <;> simp [pySub, PyVal.toQ, ha]

theorem pyMul_int2 {b : PyVal} {y : ℚ} (hb : b.toQ = some y) :
    ∃ c, pyMul (.intV 2) b = .ok c ∧ c.toQ = some (2 * y) := by
  cases b <;> simp [PyVal.toQ] at hb <;>
    simp [pyMul, PyVal.toQ, hb] <;> push_cast <;> ring

/-- Characterization of the inner bulk-matching loop of `gb_energy`: under
access and arithmetic side conditions, it computes the formula at the last
matching bulk, keeping the accumulator when no bulk matches. -/
theorem gbMatchFold_char (S : List (List PyVal)) (energy num_atoms area : List PyVal)
    (g : ℕ) (sg : List PyVal) (eQ nQ aQ : ℕ → ℚ)
    (hSg : S[g]? = some sg)
    (heg : ∃ ev, energy[g]? = some ev ∧ ev.toQ = some (eQ g))
    (hng : ∃ nv, num_atoms[g]? = some nv ∧ nv.toQ = some (nQ g))
    (hag : ∃ av, area[g]? = some av ∧ av.toQ = some (aQ g))
    (hag0 : aQ g ≠ 0) :
    ∀ (bulks : List ℕ) (acc : Option PyVal),
      (∀ b ∈ bulks, ∃ sb, S[b]? = some sb) →
      (∀ b ∈ bulks, ∃ ev, energy[b]? = some ev ∧ ev.toQ = some (eQ b)) →
      (∀ b ∈ bulks, ∃ nv, num_atoms[b]? = some nv ∧ nv.toQ = some (nQ b)) →
      (∀ b ∈ bulks, nQ b ≠ 0) →
      (bulks.foldlM (fun acc bulk_i => do
        let sg2 ← listIdx S g
        let sb2 ← listIdx S bulk_i
        if rowEqB sg2 sb2 then do
          let gb_num ← listIdx num_atoms g
          let bulk_num ← listIdx num_atoms bulk_i
          let bulk_frac ← pyDiv gb_num bulk_num
          let eg ← listIdx energy g
          let eb ← listIdx energy bulk_i
          let prod ← pyMul bulk_frac eb
          let numer ← pySub eg prod
          let ag ← listIdx area g
          let denom ← pyMul (.intV 2) ag
          let r ← pyDiv numer denom
          pure (some r)
        else
          pure acc) acc) =
        .ok (match bulks.reverse.find? (fun b => rowEqB sg (S.getD b [])) with
             | none => acc
             | some b => some (.floatV ((eQ g - nQ g / nQ b * eQ b) / (2 * aQ g)))) := by
  intro bulks
  induction bulks with
  | nil => intro acc _ _ _ _; simp [exPure]
  | cons b rest ih =>
    intro acc hS hE hN hN0
    obtain ⟨sb, hsb⟩ := hS b (by simp)
    obtain ⟨ev, hev, hevq⟩ := hE b (by simp)
    obtain ⟨nv, hnv, hnvq⟩ := hN b (by simp)
    obtain ⟨eg, hegm, hegq⟩ := heg
    obtain ⟨ng, hngm, hngq⟩ := hng
    obtain ⟨ag, hagm, hagq⟩ := hag
    have hih := fun acc2 => ih acc2 (fun x hx => hS x (by simp [hx]))
      (fun x hx => hE x (by simp [hx])) (fun x hx => hN x (by simp [hx]))
      (fun x hx => hN0 x (by simp [hx]))
    rw [List.foldlM_cons]
    by_cases hmatch : rowEqB sg sb
    · have hstep : (do
          let sg2 ← listIdx S g
          let sb2 ← listIdx S b
          if rowEqB sg2 sb2 then do
            let gb_num ← listIdx num_atoms g
            let bulk_num ← listIdx num_atoms b
            let bulk_frac ← pyDiv gb_num bulk_num
            let eg ← listIdx energy g
            let eb ← listIdx energy b
            let prod ← pyMul bulk_frac eb
            let numer ← pySub eg prod
            let ag ← listIdx area g
            let denom ← pyMul (.intV 2) ag
            let r ← pyDiv numer denom
            pure (some r)
          else
            pure acc : Except Err (Option PyVal)) =
          .ok (some (.floatV ((eQ g - nQ g / nQ b * eQ b) / (2 * aQ g)))) := by
        obtain ⟨denom, hdenom, hdenomq⟩ := pyMul_int2 hagq
        have h2ag : (2 : ℚ) * aQ g ≠ 0 := by
          exact mul_ne_zero two_ne_zero hag0
        simp [listIdx, hSg, hsb, hev, hnv, hegm, hngm, hagm, exBind_ok, hmatch,
          pyDiv_toQ hngq hnvq (hN0 b (by simp)),
          pyMul_floatL (nQ g / nQ b) hevq,
          pySub_floatR hegq (nQ g / nQ b * eQ b), hdenom,
          pyDiv_toQ (show (PyVal.floatV (eQ g - nQ g / nQ b * eQ b)).toQ =
            some (eQ g - nQ g / nQ b * eQ b) from rfl) hdenomq h2ag, exPure]
      rw [exBind_eq_ok.2 ⟨_, hstep, hih _⟩]
      congr 1
      rw [List.reverse_cons, List.find?_append]
      cases hf : rest.reverse.find? (fun b => rowEqB sg (S.getD b [])) with
      | none => simp [List.find?, hsb, hmatch, Option.orElse]
      | some b2 => simp [Option.orElse]
    · have hstep : (do
          let sg2 ← listIdx S g
          let sb2 ← listIdx S b
          if rowEqB sg2 sb2 then do
            let gb_num ← listIdx num_atoms g
            let bulk_num ← listIdx num_atoms b
            let bulk_frac ← pyDiv gb_num bulk_num
            let eg ← listIdx energy g
            let eb ← listIdx energy b
            let prod ← pyMul bulk_frac eb
            let numer ← pySub eg prod
            let ag ← listIdx area g
            let denom ← pyMul (.intV 2) ag
            let r ← pyDiv numer denom
            pure (some r)
          else
            pure acc : Except Err (Option PyVal)) = .ok acc := by
        simp [listIdx, hSg, hsb, exBind_ok, hmatch, exPure]
      rw [exBind_eq_ok.2 ⟨_, hstep, hih _⟩]
      congr 1
      rw [List.reverse_cons, List.find?_append]
      cases hf : rest.reverse.find? (fun b => rowEqB sg (S.getD b [])) with
      | none => simp [List.find?, hsb, hmatch, Option.orElse]
      | some b2 => simp [Option.orElse]

/-- Characterization of the outer loop of `gb_energy` over the bicrystal
indices: distinct in-range indices, each with a known matching outcome,
produce a list whose untouched entries keep the accumulator's values and
whose bicrystal entries hold the (unit-scaled) energy of the last matching
bulk, or stay untouched when no bulk matched. -/
theorem gbLoop_char (S : List (List PyVal)) (energy num_atoms area : List PyVal)
    (bulks : List ℕ) (u : String) (mv : ℕ → Option ℚ) :
    ∀ (idxs : List ℕ) (acc : List PyVal),
      idxs.Nodup →
      (∀ g ∈ idxs, g < acc.length) →
      (∀ g ∈ idxs, gbMatchFold S energy num_atoms area g bulks =
        .ok ((mv g).map PyVal.floatV)) →
      ∃ L, (idxs.foldlM (fun acc gb_i => do
              let e_gb ← gbMatchFold S energy num_atoms area gb_i bulks
              match e_gb with
              | none => pure acc
              | some r => do
                let r ← if u = "J/m^2" then pyMul r (.floatV jm2Factor) else pure r
                listSet acc gb_i r) acc) = .ok L ∧
        L.length = acc.length ∧
        (∀ j, j ∉ idxs → L[j]? = acc[j]?) ∧
        (∀ g ∈ idxs, L[g]? =
          match mv g with
          | none => acc[g]?
          | some q => some (.floatV (if u = "J/m^2" then q * jm2Factor else q))) := by
  intro idxs
  induction idxs with
  | nil =>
    intro acc _ _ _
    exact ⟨acc, rfl, rfl, fun j _ => rfl, fun g hg => absurd hg (by simp)⟩
  | cons g rest ih =>
    intro acc hnd hlt hmf
    have hglen : g < acc.length := hlt g (by simp)
    have hgnr : g ∉ rest := (List.nodup_cons.1 hnd).1
    have hndr : rest.Nodup := (List.nodup_cons.1 hnd).2
    cases hmv : mv g with
    | none =>
      have hstep : (do
          let e_gb ← gbMatchFold S energy num_atoms area g bulks
          match e_gb with
          | none => pure acc
          | some r => do
            let r ← if u = "J/m^2" then pyMul r (.floatV jm2Factor) else pure r
            listSet acc g r : Except Err (List PyVal)) = .ok acc := by
        simp [hmf g (by simp), hmv, exBind_ok, exPure]
      obtain ⟨L, hfold, hlen, houter, hin⟩ := ih acc hndr
        (fun x hx => hlt x (by simp [hx])) (fun x hx => hmf x (by simp [hx]))
      refine ⟨L, ?_, hlen, ?_, ?_⟩
      · rw [List.foldlM_cons, hstep, exBind_ok, hfold]
      · intro j hj
        exact houter j (fun hc => hj (by simp [hc]))
      · intro g2 hg2
        rcases List.mem_cons.1 hg2 with rfl | hg2r
        · rw [hmv, houter g2 hgnr]
        · exact hin g2 hg2r
    | some q =>
      have hstep : (do
          let e_gb ← gbMatchFold S energy num_atoms area g bulks
          match e_gb with
          | none => pure acc
          | some r => do
            let r ← if u = "J/m^2" then pyMul r (.floatV jm2Factor) else pure r
            listSet acc g r : Except Err (List PyVal)) =
          .ok (acc.set g (.floatV (if u = "J/m^2" then q * jm2Factor else q))) := by
        by_cases hu : u = "J/m^2" <;>
          simp [hmf g (by simp), hmv, exBind_ok, exPure, hu, pyMul, PyVal.toQ, listSet, hglen]
      obtain ⟨L, hfold, hlen, houter, hin⟩ := ih
        (acc.set g (.floatV (if u = "J/m^2" then q * jm2Factor else q))) hndr
        (fun x hx => by rw [List.length_set]; exact hlt x (by simp [hx]))
        (fun x hx => hmf x (by simp [hx]))
      refine ⟨L, ?_, by rw [hlen, List.length_set], ?_, ?_⟩
      · rw [List.foldlM_cons, hstep, exBind_ok, hfold]
      · intro j hj
        rw [houter j (fun hc => hj (by simp [hc]))]
        exact List.getElem?_set_ne (fun hc => hj (by simp [hc]))
      · intro g2 hg2
        rcases List.mem_cons.1 hg2 with rfl | hg2r
        · rw [hmv, houter g2 hgnr]
          exact List.getElem?_set_eq_of_lt _ (hlt g2 (by simp))
        · rw [hin g2 hg2r]
          cases hmv2 : mv g2 with
          | none =>
            simp only []
            exact List.getElem?_set_ne (fun hc => hgnr (by rw [hc]; exact hg2r))
          | some q2 => rfl

theorem mem_bicrystalIdx {sup : List PyVal} {g : ℕ} (h : g ∈ bicrystalIdx sup) :
    ∃ x, sup[g]? = some x ∧ pyEqB x (.strV "bicrystal") := by
  rw [bicrystalIdx, List.mem_map] at h
  obtain ⟨⟨i, x⟩, hmem, rfl⟩ := h
  rw [List.mem_filter] at hmem
  refine ⟨x, ?_, hmem.2⟩
  have := List.mk_mem_enum_iff_get?.1 hmem.1
  rwa [List.get?_eq_getElem?] at this

theorem mem_bulkIdx {sup : List PyVal} {b : ℕ} (h : b ∈ bulkIdx sup) :
    ∃ x, sup[b]? = some x ∧ pyEqB x (.strV "bulk") := by
  rw [bulkIdx, List.mem_map] at h
  obtain ⟨⟨i, x⟩, hmem, rfl⟩ := h
  rw [List.mem_filter] at hmem
  refine ⟨x, ?_, hmem.2⟩
  have := List.mk_mem_enum_iff_get?.1 hmem.1
  rwa [List.get?_eq_getElem?] at this

theorem bicrystalIdx_lt {sup : List PyVal} {g : ℕ} (h : g ∈ bicrystalIdx sup) :
    g < sup.length := by
  obtain ⟨x, hx, _⟩ := mem_bicrystalIdx h
  exact (List.getElem?_eq_some.1 hx).1

theorem bicrystalIdx_nodup (sup : List PyVal) : (bicrystalIdx sup).Nodup := by
  have hsub : ((sup.enum.filter (fun p => pyEqB p.2 (.strV "bicrystal"))).map
      Prod.fst).Sublist (sup.enum.map Prod.fst) :=
    (List.filter_sublist _).map Prod.fst
  exact hsub.nodup (List.nodup_enum_map_fst sup)

theorem mapM_listIdx_ok (sess : List PyVal) :
    ∀ l : List ℕ, (∀ j ∈ l, j < sess.length) →
      ∃ r, l.mapM (listIdx sess) = .ok r := by
  intro l
  induction l with
  | nil => exact fun _ => ⟨[], rfl⟩
  | cons j t ih =>
    intro h
    obtain ⟨r, hr⟩ := ih (fun x hx => h x (by simp [hx]))
    have hj : sess.get? j = some (sess.get ⟨j, h j (by simp)⟩) := by
      rw [List.get?_eq_getElem?, List.getElem?_eq_some]
      exact ⟨h j (by simp), rfl⟩
    have hidx : listIdx sess j = .ok (sess.get ⟨j, h j (by simp)⟩) := by
      simp only [listIdx]
      rw [hj]
    refine ⟨sess.get ⟨j, h j (by simp)⟩ :: r, ?_⟩
    rw [List.mapM_cons, hidx, exBind_ok, hr, exBind_ok]
    rfl

/-- Characterization of the full `gb_energy` aggregate compute: with well
formed inputs, the output assigns every non-bicrystal index `None` and every
bicrystal index either `None` (no matching bulk) or the formula
`(E_gb - (N_gb/N_bulk) * E_bulk) / (2 * A_gb)` evaluated at the **last**
matching bulk, scaled by `16.02176565` exactly when the unit is `J/m^2`. -/
theorem gb_energy_char
    (out : Out) (d0 d1 d2 d3 dl : Defn)
    (energy num area sup : List PyVal) (sids : List String) (u : String)
    (S : List (List PyVal)) (eQ nQ aQ : ℕ → ℚ)
    (hv0 : d0.vals = some energy) (hv1 : d1.vals = some num)
    (hv2 : d2.vals = some area) (hv3 : d3.vals = some sup)
    (hsid : dl.series_id = some sids) (hu : dl.unit = some u)
    (hsesh : ∀ j ∈ out.session_id_idx, j < out.session_id.length)
    (hS : srsValsOf out sids out.session_id_idx.length = .ok S)
    (hsup_len : sup.length = out.session_id_idx.length)
    (hSg : ∀ g ∈ bicrystalIdx sup, ∃ sg, S[g]? = some sg)
    (hSb : ∀ b ∈ bulkIdx sup, ∃ sb, S[b]? = some sb)
    (hEg : ∀ g ∈ bicrystalIdx sup, ∃ ev, energy[g]? = some ev ∧ ev.toQ = some (eQ g))
    (hNg : ∀ g ∈ bicrystalIdx sup, ∃ nv, num[g]? = some nv ∧ nv.toQ = some (nQ g))
    (hAg : ∀ g ∈ bicrystalIdx sup, ∃ av, area[g]? = some av ∧ av.toQ = some (aQ g))
    (hAg0 : ∀ g ∈ bicrystalIdx sup, aQ g ≠ 0)
    (hEb : ∀ b ∈ bulkIdx sup, ∃ ev, energy[b]? = some ev ∧ ev.toQ = some (eQ b))
    (hNb : ∀ b ∈ bulkIdx sup, ∃ nv, num[b]? = some nv ∧ nv.toQ = some (nQ b))
    (hNb0 : ∀ b ∈ bulkIdx sup, nQ b ≠ 0) :
    ∃ L, gb_energy out [d0, d1, d2, d3, dl] = .ok L ∧
      L.length = out.session_id_idx.length ∧
      (∀ j, j ∉ bicrystalIdx sup → j < out.session_id_idx.length → L[j]? = some .noneV) ∧
      (∀ g ∈ bicrystalIdx sup, L[g]? =
        match lastMatchingBulk S sup g with
        | none => some .noneV
        | some b => some (.floatV
            (if u = "J/m^2" then (eQ g - nQ g / nQ b * eQ b) / (2 * aQ g) * jm2Factor
             else (eQ g - nQ g / nQ b * eQ b) / (2 * aQ g)))) := by
  obtain ⟨sesh, hseshok⟩ := mapM_listIdx_ok out.session_id out.session_id_idx hsesh
  have hstep : ∀ g ∈ bicrystalIdx sup,
      gbMatchFold S energy num area g (bulkIdx sup) =
        .ok (((lastMatchingBulk S sup g).map
          (fun b => (eQ g - nQ g / nQ b * eQ b) / (2 * aQ g))).map PyVal.floatV) := by
    intro g hg
    obtain ⟨sg, hsg⟩ := hSg g hg
    have hchar := gbMatchFold_char S energy num area g sg eQ nQ aQ hsg (hEg g hg)
      (hNg g hg) (hAg g hg) (hAg0 g hg) (bulkIdx sup).reverse.reverse none
    rw [List.reverse_reverse] at hchar
    have hchar2 := hchar hSb hEb hNb hNb0
    rw [show gbMatchFold S energy num area g (bulkIdx sup) =
      (bulkIdx sup).foldlM _ none from rfl]
    rw [hchar2, lastMatchingBulk]
    have hgd : S.getD g [] = sg := by
      simp [List.getD_eq_getElem?_getD, hsg]
    rw [hgd]
    cases (bulkIdx sup).reverse.find? (fun b => rowEqB sg (S.getD b [])) <;> rfl
  obtain ⟨L, hfold, hlen, houter, hin⟩ := gbLoop_char S energy num area (bulkIdx sup) u
    (fun g => (lastMatchingBulk S sup g).map
      (fun b => (eQ g - nQ g / nQ b * eQ b) / (2 * aQ g)))
    (bicrystalIdx sup) (List.replicate out.session_id_idx.length PyVal.noneV)
    (bicrystalIdx_nodup sup)
    (fun g hg => by
      rw [List.length_replicate, ← hsup_len]
      exact bicrystalIdx_lt hg)
    hstep
  refine ⟨L, ?_, by rw [hlen, List.length_replicate], ?_, ?_⟩
  · have hlast : ([d0, d1, d2, d3, dl] : List Defn).getLast? = some dl := rfl
    simp only [gb_energy, listIdx, List.get?_eq_getElem?, List.getElem?_cons_zero,
      List.getElem?_cons_succ, hv0, hv1, hv2, hv3, hlast, hsid, hu, ofKey, exBind_ok,
      hseshok, hS, exPure]
    simp only [exPure, exBind_ok] at hfold
    rw [hfold, exBind_ok]
  · intro j hj hjlen
    rw [houter j hj, List.getElem?_replicate, if_pos hjlen]
  · intro g hg
    rw [hin g hg]
    cases hlm : lastMatchingBulk S sup g with
    | none =>
      rw [List.getElem?_replicate, if_pos (by rw [← hsup_len]; exact bicrystalIdx_lt hg)]
      rfl
    | some b => rfl

/-- C2: the original claim's formula is computed against the **first**
matching bulk; the code keeps the **last** matching bulk.  With bulks of
energy `-500` and `-400` (both `N = 100`) and a bicrystal of energy `-510`
and area `50`, all sharing one series tuple, the output at the bicrystal
index is `(-510 - 100/100 * -400) / (2 * 50) = -11/10`, not the first-bulk
value `(-510 - 100/100 * -500) / (2 * 50) = -1/10`. -/
theorem claim_C2_counterexample :
    gb_energy
      ⟨[], ["s"], [[.intV 0], [.intV 0], [.intV 0]], [.intV 0], [0, 0, 0]⟩
      [{ vals := some [.floatV (-500), .floatV (-400), .floatV (-510)] },
       { vals := some [.intV 100, .intV 100, .intV 100] },
       { vals := some [.noneV, .noneV, .floatV 50] },
       { vals := some [.strV "bulk", .strV "bulk", .strV "bicrystal"] },
       { series_id := some ["s"], unit := some "eV_per_A2" }] =
      .ok [.noneV, .noneV, .floatV (-11/10)] ∧
    (-510 - (100 : ℚ) / 100 * (-500)) / (2 * 50) = -1/10 ∧
    ((-11 : ℚ) / 10) ≠ -1/10 := by
  have hbi : bicrystalIdx [PyVal.strV "bulk", .strV "bulk", .strV "bicrystal"] = [2] := rfl
  have hbu : bulkIdx [PyVal.strV "bulk", .strV "bulk", .strV "bicrystal"] = [0, 1] := rfl
  have hlast : lastMatchingBulk [[PyVal.intV 0], [.intV 0], [.intV 0]]
      [PyVal.strV "bulk", .strV "bulk", .strV "bicrystal"] 2 = some 1 := rfl
  refine ⟨?_, by norm_num, by norm_num⟩
  obtain ⟨L, hok, hlen, houter, hin⟩ := gb_energy_char
    ⟨[], ["s"], [[.intV 0], [.intV 0], [.intV 0]], [.intV 0], [0, 0, 0]⟩
    { vals := some [.floatV (-500), .floatV (-400), .floatV (-510)] }
    { vals := some [.intV 100, .intV 100, .intV 100] }
    { vals := some [.noneV, .noneV, .floatV 50] }
    { vals := some [.strV "bulk", .strV "bulk", .strV "bicrystal"] }
    { series_id := some ["s"], unit := some "eV_per_A2" }
    [.floatV (-500), .floatV (-400), .floatV (-510)]
    [.intV 100, .intV 100, .intV 100]
    [.noneV, .noneV, .floatV 50]
    [.strV "bulk", .strV "bulk", .strV "bicrystal"]
    ["s"] "eV_per_A2"
    [[.intV 0], [.intV 0], [.intV 0]]
    (fun j => if j = 0 then -500 else if j = 1 then -400 else -510)
    (fun _ => 100) (fun _ => 50)
    rfl rfl rfl rfl rfl rfl
    (by decide) rfl rfl
    (by intro g hg; rw [hbi] at hg; simp at hg; subst hg; exact ⟨[.intV 0], rfl⟩)
    (by intro b hb; rw [hbu] at hb; simp at hb
        rcases hb with rfl | rfl
        exacts [⟨[.intV 0], rfl⟩, ⟨[.intV 0], rfl⟩])
    (by intro g hg; rw [hbi] at hg; simp at hg; subst hg; exact ⟨.floatV (-510), rfl, rfl⟩)
    (by intro g hg; rw [hbi] at hg; simp at hg; subst hg
        exact ⟨.intV 100, rfl, by norm_num [PyVal.toQ]⟩)
    (by intro g hg; rw [hbi] at hg; simp at hg; subst hg; exact ⟨.floatV 50, rfl, rfl⟩)
    (by intro g _; norm_num)
    (by intro b hb; rw [hbu] at hb; simp at hb
        rcases hb with rfl | rfl
        exacts [⟨.floatV (-500), rfl, rfl⟩, ⟨.floatV (-400), rfl, rfl⟩])
    (by intro b hb; rw [hbu] at hb; simp at hb
        rcases hb with rfl | rfl
        exacts [⟨.intV 100, rfl, by norm_num [PyVal.toQ]⟩,
                ⟨.intV 100, rfl, by norm_num [PyVal.toQ]⟩])
    (by intro b _; norm_num)
  have h2 : L[2]? = some (.floatV (-11/10)) := by
    rw [hin 2 (by rw [hbi]; simp), hlast]
    norm_num
    exact fun h => absurd h (by decide)
  rw [hok]
  congr 1
  apply List.ext_getElem?
  intro i
  match i with
  | 0 => rw [houter 0 (by rw [hbi]; simp) (by norm_num)]; rfl
  | 1 => rw [houter 1 (by rw [hbi]; simp) (by norm_num)]; rfl
  | 2 => rw [h2]; rfl
  | (n + 3) =>
    rw [List.getElem?_eq_none (by rw [hlen]; simp),
        List.getElem?_eq_none (by simp)]

/-- C2 (amended): for each bicrystal simulation, the GB energy is computed
against the **last** bulk simulation whose tuple of series values equals the
bicrystal's, as `(E_gb - (N_gb/N_bulk) * E_bulk) / (2 * A_gb)`, and the
result is multiplied by `16.02176565` exactly when the requested unit is
`'J/m^2'`. -/
theorem claim_C2_gb_energy_last_bulk
    (out : Out) (d0 d1 d2 d3 dl : Defn)
    (energy num area sup : List PyVal) (sids : List String) (u : String)
    (S : List (List PyVal)) (eQ nQ aQ : ℕ → ℚ)
    (hv0 : d0.vals = some energy) (hv1 : d1.vals = some num)
    (hv2 : d2.vals = some area) (hv3 : d3.vals = some sup)
    (hsid : dl.series_id = some sids) (hu : dl.unit = some u)
    (hsesh : ∀ j ∈ out.session_id_idx, j < out.session_id.length)
    (hS : srsValsOf out sids out.session_id_idx.length = .ok S)
    (hsup_len : sup.length = out.session_id_idx.length)
    (hSg : ∀ g ∈ bicrystalIdx sup, ∃ sg, S[g]? = some sg)
    (hSb : ∀ b ∈ bulkIdx sup, ∃ sb, S[b]? = some sb)
    (hEg : ∀ g ∈ bicrystalIdx sup, ∃ ev, energy[g]? = some ev ∧ ev.toQ = some (eQ g))
    (hNg : ∀ g ∈ bicrystalIdx sup, ∃ nv, num[g]? = some nv ∧ nv.toQ = some (nQ g))
    (hAg : ∀ g ∈ bicrystalIdx sup, ∃ av, area[g]? = some av ∧ av.toQ = some (aQ g))
    (hAg0 : ∀ g ∈ bicrystalIdx sup, aQ g ≠ 0)
    (hEb : ∀ b ∈ bulkIdx sup, ∃ ev, energy[b]? = some ev ∧ ev.toQ = some (eQ b))
    (hNb : ∀ b ∈ bulkIdx sup, ∃ nv, num[b]? = some nv ∧ nv.toQ = some (nQ b))
    (hNb0 : ∀ b ∈ bulkIdx sup, nQ b ≠ 0) :
    ∃ L, gb_energy out [d0, d1, d2, d3, dl] = .ok L ∧
      ∀ g ∈ bicrystalIdx sup, ∀ b, lastMatchingBulk S sup g = some b →
        L[g]? = some (.floatV
          (if u = "J/m^2" then (eQ g - nQ g / nQ b * eQ b) / (2 * aQ g) * jm2Factor
           else (eQ g - nQ g / nQ b * eQ b) / (2 * aQ g))) := by
  obtain ⟨L, hok, _, _, hin⟩ := gb_energy_char out d0 d1 d2 d3 dl energy num area sup
    sids u S eQ nQ aQ hv0 hv1 hv2 hv3 hsid hu hsesh hS hsup_len hSg hSb hEg hNg hAg
    hAg0 hEb hNb hNb0
  refine ⟨L, hok, ?_⟩
  intro g hg b hb
  rw [hin g hg, hb]

/-- Witness for C2 (amended): one bulk (`N = 100`, `E = -500`) and one
bicrystal (`N = 100`, `E = -510`, area `50`) with equal series tuples give
`-1/10` in the default unit and `-1/10 * 16.02176565` when the unit is
`'J/m^2'`. -/
theorem claim_C2_witness :
    (∃ L, gb_energy ⟨[], ["s"], [[.intV 0], [.intV 0]], [.intV 0], [0, 0]⟩
      [{ vals := some [.floatV (-500), .floatV (-510)] },
       { vals := some [.intV 100, .intV 100] },
       { vals := some [.noneV, .floatV 50] },
       { vals := some [.strV "bulk", .strV "bicrystal"] },
       { series_id := some ["s"], unit := some "eV_per_A2" }] = .ok L ∧
      L[1]? = some (.floatV (-1/10))) ∧
    (∃ L, gb_energy ⟨[], ["s"], [[.intV 0], [.intV 0]], [.intV 0], [0, 0]⟩
      [{ vals := some [.floatV (-500), .floatV (-510)] },
       { vals := some [.intV 100, .intV 100] },
       { vals := some [.noneV, .floatV 50] },
       { vals := some [.strV "bulk", .strV "bicrystal"] },
       { series_id := some ["s"], unit := some "J/m^2" }] = .ok L ∧
      L[1]? = some (.floatV (-1/10 * jm2Factor))) := by
  have hbi : bicrystalIdx [PyVal.strV "bulk", .strV "bicrystal"] = [1] := rfl
  have hbu : bulkIdx [PyVal.strV "bulk", .strV "bicrystal"] = [0] := rfl
  have hlast : lastMatchingBulk [[PyVal.intV 0], [.intV 0]]
      [PyVal.strV "bulk", .strV "bicrystal"] 1 = some 0 := rfl
  constructor
  · obtain ⟨L, hok, hv⟩ := claim_C2_gb_energy_last_bulk
      ⟨[], ["s"], [[.intV 0], [.intV 0]], [.intV 0], [0, 0]⟩
      { vals := some [.floatV (-500), .floatV (-510)] }
      { vals := some [.intV 100, .intV 100] }
      { vals := some [.noneV, .floatV 50] }
      { vals := some [.strV "bulk", .strV "bicrystal"] }
      { series_id := some ["s"], unit := some "eV_per_A2" }
      [.floatV (-500), .floatV (-510)]
      [.intV 100, .intV 100]
      [.noneV, .floatV 50]
      [.strV "bulk", .strV "bicrystal"]
      ["s"] "eV_per_A2"
      [[.intV 0], [.intV 0]]
      (fun j => if j = 0 then -500 else -510) (fun _ => 100) (fun _ => 50)
      rfl rfl rfl rfl rfl rfl
      (by decide) rfl rfl
      (by intro g hg; rw [hbi] at hg; simp at hg; subst hg; exact ⟨[.intV 0], rfl⟩)
      (by intro b hb; rw [hbu] at hb; simp at hb; subst hb; exact ⟨[.intV 0], rfl⟩)
      (by intro g hg; rw [hbi] at hg; simp at hg; subst hg; exact ⟨.floatV (-510), rfl, rfl⟩)
      (by intro g hg; rw [hbi] at hg; simp at hg; subst hg
          exact ⟨.intV 100, rfl, by norm_num [PyVal.toQ]⟩)
      (by intro g hg; rw [hbi] at hg; simp at hg; subst hg; exact ⟨.floatV 50, rfl, rfl⟩)
      (by intro g _; norm_num)
      (by intro b hb; rw [hbu] at hb; simp at hb; subst hb; exact ⟨.floatV (-500), rfl, rfl⟩)
      (by intro b hb; rw [hbu] at hb; simp at hb; subst hb
          exact ⟨.intV 100, rfl, by norm_num [PyVal.toQ]⟩)
      (by intro b _; norm_num)
    refine ⟨L, hok, ?_⟩
    rw [hv 1 (by rw [hbi]; simp) 0 hlast]
    norm_num
    exact fun h => absurd h (by decide)
  · obtain ⟨L, hok, hv⟩ := claim_C2_gb_energy_last_bulk
      ⟨[], ["s"], [[.intV 0], [.intV 0]], [.intV 0], [0, 0]⟩
      { vals := some [.floatV (-500), .floatV (-510)] }
      { vals := some [.intV 100, .intV 100] }
      { vals := some [.noneV, .floatV 50] }
      { vals := some [.strV "bulk", .strV "bicrystal"] }
      { series_id := some ["s"], unit := some "J/m^2" }
      [.floatV (-500), .floatV (-510)]
      [.intV 100, .intV 100]
      [.noneV, .floatV 50]
      [.strV "bulk", .strV "bicrystal"]
      ["s"] "J/m^2"
      [[.intV 0], [.intV 0]]
      (fun j => if j = 0 then -500 else -510) (fun _ => 100) (fun _ => 50)
      rfl rfl rfl rfl rfl rfl
      (by decide) rfl rfl
      (by intro g hg; rw [hbi] at hg; simp at hg; subst hg; exact ⟨[.intV 0], rfl⟩)
      (by intro b hb; rw [hbu] at hb; simp at hb; subst hb; exact ⟨[.intV 0], rfl⟩)
      (by intro g hg; rw [hbi] at hg; simp at hg; subst hg; exact ⟨.floatV (-510), rfl, rfl⟩)
      (by intro g hg; rw [hbi] at hg; simp at hg; subst hg
          exact ⟨.intV 100, rfl, by norm_num [PyVal.toQ]⟩)
      (by intro g hg; rw [hbi] at hg; simp at hg; subst hg; exact ⟨.floatV 50, rfl, rfl⟩)
      (by intro g _; norm_num)
      (by intro b hb; rw [hbu] at hb; simp at hb; subst hb; exact ⟨.floatV (-500), rfl, rfl⟩)
      (by intro b hb; rw [hbu] at hb; simp at hb; subst hb
          exact ⟨.intV 100, rfl, by norm_num [PyVal.toQ]⟩)
      (by intro b _; norm_num)
    refine ⟨L, hok, ?_⟩
    rw [hv 1 (by rw [hbi]; simp) 0 hlast]
    norm_num [jm2Factor]

/-- C7: a bicrystal simulation whose series-value tuple equals no bulk
simulation's tuple is assigned `None` in the output values sequence of
`gb_energy`. -/
theorem claim_C7_unmatched_bicrystal_none
    (out : Out) (d0 d1 d2 d3 dl : Defn)
    (energy num area sup : List PyVal) (sids : List String) (u : String)
    (S : List (List PyVal)) (eQ nQ aQ : ℕ → ℚ) (g : ℕ)
    (hv0 : d0.vals = some energy) (hv1 : d1.vals = some num)
    (hv2 : d2.vals = some area) (hv3 : d3.vals = some sup)
    (hsid : dl.series_id = some sids) (hu : dl.unit = some u)
    (hsesh : ∀ j ∈ out.session_id_idx, j < out.session_id.length)
    (hS : srsValsOf out sids out.session_id_idx.length = .ok S)
    (hsup_len : sup.length = out.session_id_idx.length)
    (hSg : ∀ g ∈ bicrystalIdx sup, ∃ sg, S[g]? = some sg)
    (hSb : ∀ b ∈ bulkIdx sup, ∃ sb, S[b]? = some sb)
    (hEg : ∀ g ∈ bicrystalIdx sup, ∃ ev, energy[g]? = some ev ∧ ev.toQ = some (eQ g))
    (hNg : ∀ g ∈ bicrystalIdx sup, ∃ nv, num[g]? = some nv ∧ nv.toQ = some (nQ g))
    (hAg : ∀ g ∈ bicrystalIdx sup, ∃ av, area[g]? = some av ∧ av.toQ = some (aQ g))
    (hAg0 : ∀ g ∈ bicrystalIdx sup, aQ g ≠ 0)
    (hEb : ∀ b ∈ bulkIdx sup, ∃ ev, energy[b]? = some ev ∧ ev.toQ = some (eQ b))
    (hNb : ∀ b ∈ bulkIdx sup, ∃ nv, num[b]? = some nv ∧ nv.toQ = some (nQ b))
    (hNb0 : ∀ b ∈ bulkIdx sup, nQ b ≠ 0)
    (hg : g ∈ bicrystalIdx sup)
    (hnm : ∀ b ∈ bulkIdx sup, rowEqB (S.getD g []) (S.getD b []) = false) :
    ∃ L, gb_energy out [d0, d1, d2, d3, dl] = .ok L ∧ L[g]? = some .noneV := by
  obtain ⟨L, hok, _, _, hin⟩ := gb_energy_char out d0 d1 d2 d3 dl energy num area sup
    sids u S eQ nQ aQ hv0 hv1 hv2 hv3 hsid hu hsesh hS hsup_len hSg hSb hEg hNg hAg
    hAg0 hEb hNb hNb0
  refine ⟨L, hok, ?_⟩
  have hnone : lastMatchingBulk S sup g = none := by
    rw [lastMatchingBulk]
    apply List.find?_eq_none.2
    intro b hb
    have h := hnm b (List.mem_reverse.1 hb)
    simp only [List.getD_eq_getElem?_getD] at h
    simp [h]
  rw [hin g hg, hnone]

/-- Witness for C7: a bulk with series tuple `[1]` and a bicrystal with
series tuple `[0]` do not match, so the bicrystal's entry is `None`. -/
theorem claim_C7_witness :
    ∃ L, gb_energy ⟨[], ["s"], [[.intV 1], [.intV 0]], [.intV 0], [0, 0]⟩
      [{ vals := some [.floatV (-500), .floatV (-510)] },
       { vals := some [.intV 100, .intV 100] },
       { vals := some [.noneV, .floatV 50] },
       { vals := some [.strV "bulk", .strV "bicrystal"] },
       { series_id := some ["s"], unit := some "eV_per_A2" }] = .ok L ∧
      L[1]? = some .noneV := by
  have hbi : bicrystalIdx [PyVal.strV "bulk", .strV "bicrystal"] = [1] := rfl
  have hbu : bulkIdx [PyVal.strV "bulk", .strV "bicrystal"] = [0] := rfl
  exact claim_C7_unmatched_bicrystal_none
    ⟨[], ["s"], [[.intV 1], [.intV 0]], [.intV 0], [0, 0]⟩
    { vals := some [.floatV (-500), .floatV (-510)] }
    { vals := some [.intV 100, .intV 100] }
    { vals := some [.noneV, .floatV 50] }
    { vals := some [.strV "bulk", .strV "bicrystal"] }
    { series_id := some ["s"], unit := some "eV_per_A2" }
    [.floatV (-500), .floatV (-510)]
    [.intV 100, .intV 100]
    [.noneV, .floatV 50]
    [.strV "bulk", .strV "bicrystal"]
    ["s"] "eV_per_A2"
    [[.intV 1], [.intV 0]]
    (fun j => if j = 0 then -500 else -510) (fun _ => 100) (fun _ => 50) 1
    rfl rfl rfl rfl rfl rfl
    (by decide) rfl rfl
    (by intro g hg; rw [hbi] at hg; simp at hg; subst hg; exact ⟨[.intV 0], rfl⟩)
    (by intro b hb; rw [hbu] at hb; simp at hb; subst hb; exact ⟨[.intV 1], rfl⟩)
    (by intro g hg; rw [hbi] at hg; simp at hg; subst hg; exact ⟨.floatV (-510), rfl, rfl⟩)
    (by intro g hg; rw [hbi] at hg; simp at hg; subst hg
        exact ⟨.intV 100, rfl, by norm_num [PyVal.toQ]⟩)
    (by intro g hg; rw [hbi] at hg; simp at hg; subst hg; exact ⟨.floatV 50, rfl, rfl⟩)
    (by intro g _; norm_num)
    (by intro b hb; rw [hbu] at hb; simp at hb; subst hb; exact ⟨.floatV (-500), rfl, rfl⟩)
    (by intro b hb; rw [hbu] at hb; simp at hb; subst hb
        exact ⟨.intV 100, rfl, by norm_num [PyVal.toQ]⟩)
    (by intro b _; norm_num)
    (by rw [hbi]; simp)
    (by intro b hb; rw [hbu] at hb; simp at hb; subst hb; rfl)

/-- C9: for every parallelepiped (edge matrix `B`) and origin, the 8 corners
returned by `get_box_corners` are the origin plus the linear combinations of
the 3 edge vectors: the empty combination, each single vector, each pairwise
sum, and the full sum; in particular corner 0 is the origin and, for the
identity edge vectors at the zero origin, corner 7 is `[1,1,1]`. -/
theorem claim_C9_box_corners (B : M3) (origin : V3) (r : Fin 3) :
    get_box_corners B origin 0 r = origin r ∧
    get_box_corners B origin 1 r = origin r + B r 0 ∧
    get_box_corners B origin 2 r = origin r + B r 1 ∧
    get_box_corners B origin 3 r = origin r + B r 2 ∧
    get_box_corners B origin 4 r = origin r + (B r 0 + B r 1) ∧
    get_box_corners B origin 5 r = origin r + (B r 0 + B r 2) ∧
    get_box_corners B origin 6 r = origin r + (B r 1 + B r 2) ∧
    get_box_corners B origin 7 r = origin r + (B r 0 + B r 1 + B r 2) ∧
    get_box_corners idM zeroV 0 r = 0 ∧
    get_box_corners idM zeroV 7 r = 1 := by
  refine ⟨?_, rfl, rfl, rfl, rfl, rfl, rfl, rfl, ?_, ?_⟩
  · show origin r + 0 = origin r
    ring
  · show zeroV r + 0 = 0
    simp [zeroV]
  · show zeroV r + (idM r 0 + idM r 1 + idM r 2) = 1
    fin_cases r <;> simp [zeroV, idM]

/-- C10: `get_box_xyz` with an explicit origin argument fails with the
origin-count `ValueError` exactly when the number of origin columns differs
from the number of boxes; with matching counts, or with the origin omitted,
it returns normally. -/
theorem claim_C10_origin_count (box : BoxArg) (origin : OriginArg) (faces : Bool) :
    ((originsOf origin).length ≠ (boxesOf box).length ↔
      get_box_xyz box (some origin) faces = .error .originCountMismatch) ∧
    ((originsOf origin).length = (boxesOf box).length →
      ∃ o, get_box_xyz box (some origin) faces = .ok o) ∧
    (∃ o, get_box_xyz box none faces = .ok o) := by
  refine ⟨⟨fun h => ?_, fun h => ?_⟩, fun h => ?_, ?_⟩
  · cases box <;> cases origin <;> cases faces <;>
      simp_all [get_box_xyz, boxesOf, originsOf]
  · by_contra hne
    cases box <;> cases origin <;> cases faces <;>
      simp_all [get_box_xyz, boxesOf, originsOf]
  · cases box <;> cases origin <;> cases faces <;>
      simp_all [get_box_xyz, boxesOf, originsOf]
  · cases box <;> cases faces <;> simp [get_box_xyz, boxesOf]

/-- Witness for C10: one origin for two boxes is rejected with the
origin-count error, while one origin for one box succeeds. -/
theorem claim_C10_witness :
    get_box_xyz (.many [idM, idM]) (some (.many [zeroV])) false =
      .error .originCountMismatch ∧
    ∃ o, get_box_xyz (.one idM) (some (.one zeroV)) false = .ok o :=
  ⟨(claim_C10_origin_count (.many [idM, idM]) (.many [zeroV]) false).1.1 (by decide),
   (claim_C10_origin_count (.one idM) (.one zeroV) false).2.1 (by decide)⟩

theorem min8_le (f : Fin 8 → ℚ) (j : Fin 8) : min8 f ≤ f j := by
  fin_cases j <;> simp [min8, min_le_iff, le_refl]

theorem le_max8 (f : Fin 8 → ℚ) (j : Fin 8) : f j ≤ max8 f := by
  fin_cases j <;> simp [max8, le_max_iff, le_refl]

theorem mulV_inv3_right (A : M3) (hdet : det3 A ≠ 0) (v : V3) (r : Fin 3) :
    mulV A (mulV (inv3 A) v) r = v r := by
  have e00 : inv3 A 0 0 = (A 1 1 * A 2 2 - A 1 2 * A 2 1) / det3 A := rfl
  have e01 : inv3 A 0 1 = (A 0 2 * A 2 1 - A 0 1 * A 2 2) / det3 A := rfl
  have e02 : inv3 A 0 2 = (A 0 1 * A 1 2 - A 0 2 * A 1 1) / det3 A := rfl
  have e10 : inv3 A 1 0 = (A 1 2 * A 2 0 - A 1 0 * A 2 2) / det3 A := rfl
  have e11 : inv3 A 1 1 = (A 0 0 * A 2 2 - A 0 2 * A 2 0) / det3 A := rfl
  have e12 : inv3 A 1 2 = (A 0 2 * A 1 0 - A 0 0 * A 1 2) / det3 A := rfl
  have e20 : inv3 A 2 0 = (A 1 0 * A 2 1 - A 1 1 * A 2 0) / det3 A := rfl
  have e21 : inv3 A 2 1 = (A 0 1 * A 2 0 - A 0 0 * A 2 1) / det3 A := rfl
  have e22 : inv3 A 2 2 = (A 0 0 * A 1 1 - A 0 1 * A 1 0) / det3 A := rfl
  have key : r = 0 ∨ r = 1 ∨ r = 2 := by
    rcases r with ⟨rv, hr⟩
    interval_cases rv <;> simp
  rcases key with rfl | rfl | rfl <;>
  · simp only [mulV, e00, e01, e02, e10, e11, e12, e20, e21, e22]
    field_simp
    simp only [det3]
    ring

theorem cornersBound_comb (A B : M3) (j : Fin 8) (r : Fin 3) :
    cornersBound A B j r = cornerComb (basisBox A B) j r := by
  fin_cases j <;>
  · simp only [cornersBound, get_box_corners, cornerComb, mulV, zeroV, basisBox]
    ring

theorem combBounds (W : M3) (s : V3) (hs : ∀ i, 0 ≤ s i ∧ s i ≤ 1) (r : Fin 3) :
    min8 (fun j => cornerComb W j r) ≤ s 0 * W r 0 + s 1 * W r 1 + s 2 * W r 2 ∧
    s 0 * W r 0 + s 1 * W r 1 + s 2 * W r 2 ≤ max8 (fun j => cornerComb W j r) := by
  have key : ∀ c : Fin 3, min (W r c) 0 ≤ s c * W r c ∧ s c * W r c ≤ max (W r c) 0 := by
    intro c
    rcases le_total (W r c) 0 with h | h
    · have h1 : (1 - s c) * W r c ≤ 0 :=
        mul_nonpos_of_nonneg_of_nonpos (by linarith [(hs c).2]) h
      have h2 : s c * W r c ≤ 0 := mul_nonpos_of_nonneg_of_nonpos (hs c).1 h
      exact ⟨by rw [min_eq_left h]; nlinarith, by rw [max_eq_right h]; exact h2⟩
    · have h1 : 0 ≤ s c * W r c := mul_nonneg (hs c).1 h
      have h2 : 0 ≤ (1 - s c) * W r c := mul_nonneg (by linarith [(hs c).2]) h
      exact ⟨by rw [min_eq_right h]; exact h1, by rw [max_eq_left h]; nlinarith⟩
  obtain ⟨k0l, k0r⟩ := key 0
  obtain ⟨k1l, k1r⟩ := key 1
  obtain ⟨k2l, k2r⟩ := key 2
  have hmin : min8 (fun j => cornerComb W j r) ≤
      min (W r 0) 0 + min (W r 1) 0 + min (W r 2) 0 := by
    rcases le_total (W r 0) 0 with h0 | h0 <;> rcases le_total (W r 1) 0 with h1 | h1 <;>
      rcases le_total (W r 2) 0 with h2 | h2
    · rw [min_eq_left h0, min_eq_left h1, min_eq_left h2]
      have h := (show min8 (fun j => cornerComb W j r) ≤ W r 0 + W r 1 + W r 2 from
        min8_le _ 7)
      linarith
    · rw [min_eq_left h0, min_eq_left h1, min_eq_right h2]
      have h := (show min8 (fun j => cornerComb W j r) ≤ W r 0 + W r 1 from min8_le _ 4)
      linarith
    · rw [min_eq_left h0, min_eq_right h1, min_eq_left h2]
      have h := (show min8 (fun j => cornerComb W j r) ≤ W r 0 + W r 2 from min8_le _ 5)
      linarith
    · rw [min_eq_left h0, min_eq_right h1, min_eq_right h2]
      have h := (show min8 (fun j => cornerComb W j r) ≤ W r 0 from min8_le _ 1)
      linarith
    · rw [min_eq_right h0, min_eq_left h1, min_eq_left h2]
      have h := (show min8 (fun j => cornerComb W j r) ≤ W r 1 + W r 2 from min8_le _ 6)
      linarith
    · rw [min_eq_right h0, min_eq_left h1, min_eq_right h2]
      have h := (show min8 (fun j => cornerComb W j r) ≤ W r 1 from min8_le _ 2)
      linarith
    · rw [min_eq_right h0, min_eq_right h1, min_eq_left h2]
      have h := (show min8 (fun j => cornerComb W j r) ≤ W r 2 from min8_le _ 3)
      linarith
    · rw [min_eq_right h0, min_eq_right h1, min_eq_right h2]
      have h := (show min8 (fun j => cornerComb W j r) ≤ 0 from min8_le _ 0)
      linarith
  have hmax : max (W r 0) 0 + max (W r 1) 0 + max (W r 2) 0 ≤
      max8 (fun j => cornerComb W j r) := by
    rcases le_total (W r 0) 0 with h0 | h0 <;> rcases le_total (W r 1) 0 with h1 | h1 <;>
      rcases le_total (W r 2) 0 with h2 | h2
    · rw [max_eq_right h0, max_eq_right h1, max_eq_right h2]
      have h := (show (0 : ℚ) ≤ max8 (fun j => cornerComb W j r) from le_max8 _ 0)
      linarith
    · rw [max_eq_right h0, max_eq_right h1, max_eq_left h2]
      have h := (show W r 2 ≤ max8 (fun j => cornerComb W j r) from le_max8 _ 3)
      linarith
    · rw [max_eq_right h0, max_eq_left h1, max_eq_right h2]
      have h := (show W r 1 ≤ max8 (fun j => cornerComb W j r) from le_max8 _ 2)
      linarith
    · rw [max_eq_right h0, max_eq_left h1, max_eq_left h2]
      have h := (show W r 1 + W r 2 ≤ max8 (fun j => cornerComb W j r) from le_max8 _ 6)
      linarith
    · rw [max_eq_left h0, max_eq_right h1, max_eq_right h2]
      have h := (show W r 0 ≤ max8 (fun j => cornerComb W j r) from le_max8 _ 1)
      linarith
    · rw [max_eq_left h0, max_eq_right h1, max_eq_left h2]
      have h := (show W r 0 + W r 2 ≤ max8 (fun j => cornerComb W j r) from le_max8 _ 5)
      linarith
    · rw [max_eq_left h0, max_eq_left h1, max_eq_right h2]
      have h := (show W r 0 + W r 1 ≤ max8 (fun j => cornerComb W j r) from le_max8 _ 4)
      linarith
    · rw [max_eq_left h0, max_eq_left h1, max_eq_left h2]
      have h := (show W r 0 + W r 1 + W r 2 ≤ max8 (fun j => cornerComb W j r) from
        le_max8 _ 7)
      linarith
  exact ⟨by linarith, by linarith⟩

theorem bb_contains (A B : M3) (hdet : det3 A ≠ 0)
    (hsnapMin : ∀ r, snapQ bbTol (min8 (fun j => cornersBound A B j r)) =
      min8 (fun j => cornersBound A B j r))
    (hsnapMax : ∀ r, snapQ bbTol (max8 (fun j => cornersBound A B j r)) =
      max8 (fun j => cornersBound A B j r))
    (hsnapBox : ∀ r c, snapQ bbTol ((bbBv A B c : ℚ) * A r c) =
      (bbBv A B c : ℚ) * A r c)
    (p : V3) (hp : inBox zeroV B p) : inBox (bbOrigin A B) (bbBox A B) p := by
  obtain ⟨s, hs, hps⟩ := hp
  have hyW : ∀ r : Fin 3, mulV (inv3 A) p r =
      s 0 * basisBox A B r 0 + s 1 * basisBox A B r 1 + s 2 * basisBox A B r 2 := by
    intro r
    have h0 := hps 0
    have h1 := hps 1
    have h2 := hps 2
    simp only [zeroV, boxPoint, zero_add] at h0 h1 h2
    simp only [mulV, basisBox, h0, h1, h2]
    ring
  have hbounds : ∀ r : Fin 3,
      min8 (fun j => cornersBound A B j r) ≤ mulV (inv3 A) p r ∧
      mulV (inv3 A) p r ≤ max8 (fun j => cornersBound A B j r) := by
    intro r
    have hfe : (fun j => cornersBound A B j r) =
        (fun j => cornerComb (basisBox A B) j r) :=
      funext fun j => cornersBound_comb A B j r
    rw [hfe, hyW r]
    exact combBounds (basisBox A B) s hs r
  have hfl : ∀ r : Fin 3, (bbFloor A B r : ℚ) ≤ mulV (inv3 A) p r := by
    intro r
    calc (bbFloor A B r : ℚ) = ((⌊bbMins A B r⌋ : ℤ) : ℚ) := rfl
      _ ≤ bbMins A B r := Int.floor_le _
      _ = min8 (fun j => cornersBound A B j r) := hsnapMin r
      _ ≤ mulV (inv3 A) p r := (hbounds r).1
  have hcl : ∀ r : Fin 3, mulV (inv3 A) p r ≤ (bbCeil A B r : ℚ) := by
    intro r
    calc mulV (inv3 A) p r ≤ max8 (fun j => cornersBound A B j r) := (hbounds r).2
      _ = bbMaxs A B r := (hsnapMax r).symm
      _ ≤ ((⌈bbMaxs A B r⌉ : ℤ) : ℚ) := Int.le_ceil _
      _ = (bbCeil A B r : ℚ) := rfl
  have hbv_nonneg : ∀ r : Fin 3, 0 ≤ bbBv A B r := by
    intro r
    have h1 : (bbFloor A B r : ℚ) ≤ (bbCeil A B r : ℚ) := (hfl r).trans (hcl r)
    have h2 : bbFloor A B r ≤ bbCeil A B r := by exact_mod_cast h1
    rw [bbBv]
    omega
  have hcomp : ∀ c : Fin 3,
      (bbFloor A B c : ℚ) +
        (if bbBv A B c = 0 then 0
         else (mulV (inv3 A) p c - (bbFloor A B c : ℚ)) / ((bbBv A B c : ℚ))) *
          (bbBv A B c : ℚ) = mulV (inv3 A) p c := by
    intro c
    by_cases h0 : bbBv A B c = 0
    · have h1 : bbCeil A B c = bbFloor A B c := by
        have h2 := h0
        rw [bbBv] at h2
        omega
      have h2 : mulV (inv3 A) p c ≤ (bbFloor A B c : ℚ) := by
        have h3 := hcl c
        rw [h1] at h3
        exact h3
      have h4 := hfl c
      rw [if_pos h0]
      have h5 : mulV (inv3 A) p c = (bbFloor A B c : ℚ) := le_antisymm h2 h4
      rw [h5]
      ring
    · have hbvne : ((bbBv A B c : ℤ) : ℚ) ≠ 0 := by exact_mod_cast h0
      rw [if_neg h0, div_mul_cancel₀ _ hbvne]
      ring
  refine ⟨fun c => if bbBv A B c = 0 then 0
    else (mulV (inv3 A) p c - (bbFloor A B c : ℚ)) / ((bbBv A B c : ℚ)), ?_, ?_⟩
  · intro i
    by_cases h0 : bbBv A B i = 0
    · simp [h0]
    · have hpos : (0 : ℚ) < ((bbBv A B i : ℤ) : ℚ) := by
        have h1 : 0 < bbBv A B i := lt_of_le_of_ne (hbv_nonneg i) (Ne.symm h0)
        exact_mod_cast h1
      simp only [if_neg h0]
      constructor
      · apply div_nonneg _ hpos.le
        have h1 := hfl i
        linarith
      · rw [div_le_one hpos]
        have h1 := hcl i
        have h2 : ((bbCeil A B i : ℤ) : ℚ) = (bbFloor A B i : ℚ) + ((bbBv A B i : ℤ) : ℚ) := by
          rw [bbBv]
          push_cast
          ring
        linarith
  · intro r
    have hpy : p r = mulV A (mulV (inv3 A) p) r := (mulV_inv3_right A hdet p r).symm
    rw [hpy]
    have hbb : ∀ c : Fin 3, bbBox A B r c = (bbBv A B c : ℚ) * A r c := fun c => hsnapBox r c
    show A r 0 * mulV (inv3 A) p 0 + A r 1 * mulV (inv3 A) p 1 + A r 2 * mulV (inv3 A) p 2 =
      (A r 0 * (bbFloor A B 0 : ℚ) + A r 1 * (bbFloor A B 1 : ℚ) +
        A r 2 * (bbFloor A B 2 : ℚ)) +
      ((if bbBv A B 0 = 0 then 0
        else (mulV (inv3 A) p 0 - (bbFloor A B 0 : ℚ)) / ((bbBv A B 0 : ℚ))) *
          bbBox A B r 0 +
       (if bbBv A B 1 = 0 then 0
        else (mulV (inv3 A) p 1 - (bbFloor A B 1 : ℚ)) / ((bbBv A B 1 : ℚ))) *
          bbBox A B r 1 +
       (if bbBv A B 2 = 0 then 0
        else (mulV (inv3 A) p 2 - (bbFloor A B 2 : ℚ)) / ((bbBv A B 2 : ℚ))) *
          bbBox A B r 2)
    rw [hbb 0, hbb 1, hbb 2]
    linear_combination (-(A r 0)) * hcomp 0 - A r 1 * hcomp 1 - A r 2 * hcomp 2

/-- C8 (amended): whenever the basis is invertible and the three snap
operations of `get_bounding_box` (on the per-axis minima, the per-axis
maxima, and the assembled box) change nothing, the bounding box edge vectors
are the integer multiples `bound_box_bv` of the basis vectors and the
bounding box contains the input parallelepiped.  Without those snap-identity
conditions the `1e-12` snap can shrink the box below the input (see the
counterexample). -/
theorem claim_C8_bounding_box (Aopt : Option M3) (A B : M3)
    (hA : Aopt.getD idM = A) (hdet : det3 A ≠ 0)
    (hsnapMin : ∀ r, snapQ bbTol (min8 (fun j => cornersBound A B j r)) =
      min8 (fun j => cornersBound A B j r))
    (hsnapMax : ∀ r, snapQ bbTol (max8 (fun j => cornersBound A B j r)) =
      max8 (fun j => cornersBound A B j r))
    (hsnapBox : ∀ r c, snapQ bbTol ((bbBv A B c : ℚ) * A r c) =
      (bbBv A B c : ℚ) * A r c) :
    ∃ bb o bv obv, get_bounding_box [B] Aopt = ⟨[bb], [o], [bv], [obv]⟩ ∧
      (∀ r c, bb r c = (bv c : ℚ) * A r c) ∧
      ∀ p, inBox zeroV B p → inBox o bb p := by
  have hrec : get_bounding_box [B] Aopt =
      ⟨[bbBox A B], [bbOrigin A B], [bbBv A B], [bbFloor A B]⟩ := by
    simp only [get_bounding_box, hA, List.map_cons, List.map_nil]
  exact ⟨bbBox A B, bbOrigin A B, bbBv A B, bbFloor A B, hrec,
    fun r c => hsnapBox r c,
    fun p hp => bb_contains A B hdet hsnapMin hsnapMax hsnapBox p hp⟩

theorem idM_entries :
    idM 0 0 = 1 ∧ idM 0 1 = 0 ∧ idM 0 2 = 0 ∧ idM 1 0 = 0 ∧ idM 1 1 = 1 ∧
    idM 1 2 = 0 ∧ idM 2 0 = 0 ∧ idM 2 1 = 0 ∧ idM 2 2 = 1 :=
  ⟨rfl, rfl, rfl, rfl, rfl, rfl, rfl, rfl, rfl⟩

theorem det3_idM : det3 idM = 1 := by
  obtain ⟨i00, i01, i02, i10, i11, i12, i20, i21, i22⟩ := idM_entries
  rw [det3, i00, i01, i02, i10, i11, i12, i20, i21, i22]
  norm_num

theorem mulV_idM (w : V3) (r : Fin 3) : mulV idM w r = w r := by
  have key : r = 0 ∨ r = 1 ∨ r = 2 := by
    rcases r with ⟨rv, hr⟩
    interval_cases rv <;> simp
  obtain ⟨i00, i01, i02, i10, i11, i12, i20, i21, i22⟩ := idM_entries
  rcases key with rfl | rfl | rfl <;>
    simp only [mulV, i00, i01, i02, i10, i11, i12, i20, i21, i22] <;> ring

theorem mulV_inv3_idM (w : V3) (r : Fin 3) : mulV (inv3 idM) w r = w r := by
  have h := mulV_inv3_right idM (by rw [det3_idM]; norm_num) w r
  rwa [mulV_idM] at h

theorem cornersBound_idM (B : M3) (j : Fin 8) (r : Fin 3) :
    cornersBound idM B j r = cornerComb B j r := by
  rw [cornersBound, mulV_inv3_idM]
  simp [get_box_corners, zeroV]

theorem snapQ_of_small {x : ℚ} (h : |x| < bbTol) : snapQ bbTol x = 0 := if_pos h

theorem snapQ_of_big {x : ℚ} (h : ¬ |x| < bbTol) : snapQ bbTol x = x := if_neg h

theorem snapQ_zero_eq : snapQ bbTol 0 = 0 := by
  rw [snapQ]
  split <;> rfl

theorem snapQ_one_le {x : ℚ} (h : 1 ≤ |x|) : snapQ bbTol x = x := by
  rw [snapQ, if_neg]
  rw [bbTol]
  intro hc
  have h1 : (1 : ℚ) / 10 ^ 12 < 1 := by norm_num
  linarith

theorem finThreeCases (r : Fin 3) : r = 0 ∨ r = 1 ∨ r = 2 := by
  rcases r with ⟨rv, hr⟩
  interval_cases rv <;> simp

/-- Witness for C8 (amended): for the spec's orthogonal box
`[[2,0,0],[0,2,0],[0,0,2]]` in the default identity basis the snap
operations change nothing, so the theorem applies, and the resulting
bounding box is the box itself at the origin `[0,0,0]`. -/
theorem claim_C8_witness :
    (∃ bb o bv obv, get_bounding_box [twoI] none = ⟨[bb], [o], [bv], [obv]⟩ ∧
      (∀ r c, bb r c = (bv c : ℚ) * idM r c) ∧
      ∀ p, inBox zeroV twoI p → inBox o bb p) ∧
    (get_bounding_box [twoI] none).bound_box = [twoI] ∧
    (get_bounding_box [twoI] none).bound_box_origin = [zeroV] := by
  obtain ⟨i00, i01, i02, i10, i11, i12, i20, i21, i22⟩ := idM_entries
  have t00 : twoI 0 0 = 2 := rfl
  have t01 : twoI 0 1 = 0 := rfl
  have t02 : twoI 0 2 = 0 := rfl
  have t10 : twoI 1 0 = 0 := rfl
  have t11 : twoI 1 1 = 2 := rfl
  have t12 : twoI 1 2 = 0 := rfl
  have t20 : twoI 2 0 = 0 := rfl
  have t21 : twoI 2 1 = 0 := rfl
  have t22 : twoI 2 2 = 2 := rfl
  have cc0 : ∀ r, cornerComb twoI 0 r = 0 := fun _ => rfl
  have cc1 : ∀ r, cornerComb twoI 1 r = twoI r 0 := fun _ => rfl
  have cc2 : ∀ r, cornerComb twoI 2 r = twoI r 1 := fun _ => rfl
  have cc3 : ∀ r, cornerComb twoI 3 r = twoI r 2 := fun _ => rfl
  have cc4 : ∀ r, cornerComb twoI 4 r = twoI r 0 + twoI r 1 := fun _ => rfl
  have cc5 : ∀ r, cornerComb twoI 5 r = twoI r 0 + twoI r 2 := fun _ => rfl
  have cc6 : ∀ r, cornerComb twoI 6 r = twoI r 1 + twoI r 2 := fun _ => rfl
  have cc7 : ∀ r, cornerComb twoI 7 r = twoI r 0 + twoI r 1 + twoI r 2 := fun _ => rfl
  have hket : ∀ r : Fin 3, (fun j => cornersBound idM twoI j r) =
      (fun j => cornerComb twoI j r) :=
    fun r => funext fun j => cornersBound_idM twoI j r
  have hminr : ∀ r : Fin 3, min8 (fun j => cornerComb twoI j r) = 0 := by
    intro r
    rcases finThreeCases r with rfl | rfl | rfl <;>
      · simp only [min8, cc0, cc1, cc2, cc3, cc4, cc5, cc6, cc7,
          t00, t01, t02, t10, t11, t12, t20, t21, t22]
        norm_num [min_def]
  have hmaxr : ∀ r : Fin 3, max8 (fun j => cornerComb twoI j r) = 2 := by
    intro r
    rcases finThreeCases r with rfl | rfl | rfl <;>
      · simp only [max8, cc0, cc1, cc2, cc3, cc4, cc5, cc6, cc7,
          t00, t01, t02, t10, t11, t12, t20, t21, t22]
        norm_num [max_def]
  have hsMin : ∀ r, snapQ bbTol (min8 (fun j => cornersBound idM twoI j r)) =
      min8 (fun j => cornersBound idM twoI j r) := by
    intro r
    rw [hket r, hminr r, snapQ_zero_eq]
  have hsMax : ∀ r, snapQ bbTol (max8 (fun j => cornersBound idM twoI j r)) =
      max8 (fun j => cornersBound idM twoI j r) := by
    intro r
    rw [hket r, hmaxr r]
    exact snapQ_one_le (by rw [abs_of_nonneg] <;> norm_num)
  have hmins : ∀ r, bbMins idM twoI r = 0 := by
    intro r
    show snapQ bbTol (min8 (fun j => cornersBound idM twoI j r)) = 0
    rw [hket r, hminr r, snapQ_zero_eq]
  have hmaxs : ∀ r, bbMaxs idM twoI r = 2 := by
    intro r
    show snapQ bbTol (max8 (fun j => cornersBound idM twoI j r)) = 2
    rw [hket r, hmaxr r]
    exact snapQ_one_le (by rw [abs_of_nonneg] <;> norm_num)
  have hfloor : ∀ r, bbFloor idM twoI r = 0 := by
    intro r
    show ⌊bbMins idM twoI r⌋ = 0
    rw [hmins r]
    norm_num
  have hceil : ∀ r, bbCeil idM twoI r = 2 := by
    intro r
    show ⌈bbMaxs idM twoI r⌉ = 2
    rw [hmaxs r]
    norm_num
  have hbv : ∀ r, bbBv idM twoI r = 2 := by
    intro r
    show bbCeil idM twoI r - bbFloor idM twoI r = 2
    rw [hceil r, hfloor r]
    norm_num
  have hsBox : ∀ r c, snapQ bbTol ((bbBv idM twoI c : ℚ) * idM r c) =
      (bbBv idM twoI c : ℚ) * idM r c := by
    intro r c
    rw [hbv c]
    rcases finThreeCases r with rfl | rfl | rfl <;> rcases finThreeCases c with rfl | rfl | rfl <;>
      simp only [i00, i01, i02, i10, i11, i12, i20, i21, i22, mul_one, mul_zero] <;>
      first
        | exact snapQ_zero_eq
        | exact snapQ_one_le (by push_cast; rw [abs_of_nonneg] <;> norm_num)
  have hdet1 : det3 idM ≠ 0 := by
    rw [det3_idM]
    norm_num
  have hboxeq : bbBox idM twoI = twoI := by
    refine funext fun r => funext fun c => ?_
    show snapQ bbTol ((bbBv idM twoI c : ℚ) * idM r c) = twoI r c
    rw [hsBox r c, hbv c]
    rcases finThreeCases r with rfl | rfl | rfl <;> rcases finThreeCases c with rfl | rfl | rfl <;>
      simp only [i00, i01, i02, i10, i11, i12, i20, i21, i22,
        t00, t01, t02, t10, t11, t12, t20, t21, t22, mul_one, mul_zero] <;>
      push_cast <;> norm_num
  have horigeq : bbOrigin idM twoI = zeroV := by
    refine funext fun r => ?_
    show mulV idM (fun c => (bbFloor idM twoI c : ℚ)) r = zeroV r
    rw [mulV_idM]
    rw [hfloor r]
    norm_num [zeroV]
  refine ⟨claim_C8_bounding_box none idM twoI rfl hdet1 hsMin hsMax hsBox, ?_, ?_⟩
  · show [bbBox idM twoI] = [twoI]
    rw [hboxeq]
  · show [bbOrigin idM twoI] = [zeroV]
    rw [horigeq]

/-- C8: the claimed unconditional containment fails because of the `1e-12`
snap.  For the box with edge vectors `(-1e-13, 0, 0)`, `(0,1,0)`, `(0,0,1)`
in the identity basis, the axis-0 minimum `-1e-13` is snapped to `0`, the
computed bounding box has a zero column, and the input corner
`(-1e-13, 0, 0)` lies in the input box but not in the returned bounding
box. -/
theorem claim_C8_counterexample :
    (get_bounding_box [c8Box] (some idM)).bound_box = [bbBox idM c8Box] ∧
    (get_bounding_box [c8Box] (some idM)).bound_box_origin = [bbOrigin idM c8Box] ∧
    inBox zeroV c8Box c8Pt ∧
    ¬ inBox (bbOrigin idM c8Box) (bbBox idM c8Box) c8Pt := by
  obtain ⟨i00, i01, i02, i10, i11, i12, i20, i21, i22⟩ := idM_entries
  have b00 : c8Box 0 0 = -(1 / 10 ^ 13) := rfl
  have b01 : c8Box 0 1 = 0 := rfl
  have b02 : c8Box 0 2 = 0 := rfl
  have b10 : c8Box 1 0 = 0 := rfl
  have b11 : c8Box 1 1 = 1 := rfl
  have b12 : c8Box 1 2 = 0 := rfl
  have b20 : c8Box 2 0 = 0 := rfl
  have b21 : c8Box 2 1 = 0 := rfl
  have b22 : c8Box 2 2 = 1 := rfl
  have cc0 : ∀ r, cornerComb c8Box 0 r = 0 := fun _ => rfl
  have cc1 : ∀ r, cornerComb c8Box 1 r = c8Box r 0 := fun _ => rfl
  have cc2 : ∀ r, cornerComb c8Box 2 r = c8Box r 1 := fun _ => rfl
  have cc3 : ∀ r, cornerComb c8Box 3 r = c8Box r 2 := fun _ => rfl
  have cc4 : ∀ r, cornerComb c8Box 4 r = c8Box r 0 + c8Box r 1 := fun _ => rfl
  have cc5 : ∀ r, cornerComb c8Box 5 r = c8Box r 0 + c8Box r 2 := fun _ => rfl
  have cc6 : ∀ r, cornerComb c8Box 6 r = c8Box r 1 + c8Box r 2 := fun _ => rfl
  have cc7 : ∀ r, cornerComb c8Box 7 r = c8Box r 0 + c8Box r 1 + c8Box r 2 := fun _ => rfl
  have hket : ∀ r : Fin 3, (fun j => cornersBound idM c8Box j r) =
      (fun j => cornerComb c8Box j r) :=
    fun r => funext fun j => cornersBound_idM c8Box j r
  have hmin0 : min8 (fun j => cornerComb c8Box j 0) = -(1 / 10 ^ 13) := by
    simp only [min8, cc0, cc1, cc2, cc3, cc4, cc5, cc6, cc7, b00, b01, b02]
    norm_num [min_def]
  have hmax0 : max8 (fun j => cornerComb c8Box j 0) = 0 := by
    simp only [max8, cc0, cc1, cc2, cc3, cc4, cc5, cc6, cc7, b00, b01, b02]
    norm_num [max_def]
  have hmin1 : min8 (fun j => cornerComb c8Box j 1) = 0 := by
    simp only [min8, cc0, cc1, cc2, cc3, cc4, cc5, cc6, cc7, b10, b11, b12]
    norm_num [min_def]
  have hmax1 : max8 (fun j => cornerComb c8Box j 1) = 1 := by
    simp only [max8, cc0, cc1, cc2, cc3, cc4, cc5, cc6, cc7, b10, b11, b12]
    norm_num [max_def]
  have hmin2 : min8 (fun j => cornerComb c8Box j 2) = 0 := by
    simp only [min8, cc0, cc1, cc2, cc3, cc4, cc5, cc6, cc7, b20, b21, b22]
    norm_num [min_def]
  have hmax2 : max8 (fun j => cornerComb c8Box j 2) = 1 := by
    simp only [max8, cc0, cc1, cc2, cc3, cc4, cc5, cc6, cc7, b20, b21, b22]
    norm_num [max_def]
  have hsnapneg : snapQ bbTol (-(1 / 10 ^ 13)) = 0 := by
    rw [snapQ, if_pos]
    rw [abs_neg, abs_of_nonneg (by norm_num), bbTol]
    norm_num
  have hmins : ∀ r : Fin 3, bbMins idM c8Box r = 0 := by
    intro r
    show snapQ bbTol (min8 (fun j => cornersBound idM c8Box j r)) = 0
    rw [hket r]
    rcases finThreeCases r with rfl | rfl | rfl
    · rw [hmin0, hsnapneg]
    · rw [hmin1, snapQ_zero_eq]
    · rw [hmin2, snapQ_zero_eq]
  have hmaxs0 : bbMaxs idM c8Box 0 = 0 := by
    show snapQ bbTol (max8 (fun j => cornersBound idM c8Box j 0)) = 0
    rw [hket 0, hmax0, snapQ_zero_eq]
  have hmaxs1 : bbMaxs idM c8Box 1 = 1 := by
    show snapQ bbTol (max8 (fun j => cornersBound idM c8Box j 1)) = 1
    rw [hket 1, hmax1]
    exact snapQ_one_le (by rw [abs_of_nonneg] <;> norm_num)
  have hmaxs2 : bbMaxs idM c8Box 2 = 1 := by
    show snapQ bbTol (max8 (fun j => cornersBound idM c8Box j 2)) = 1
    rw [hket 2, hmax2]
    exact snapQ_one_le (by rw [abs_of_nonneg] <;> norm_num)
  have hfloor : ∀ r : Fin 3, bbFloor idM c8Box r = 0 := by
    intro r
    show ⌊bbMins idM c8Box r⌋ = 0
    rw [hmins r]
    norm_num
  have hbv0 : bbBv idM c8Box 0 = 0 := by
    show bbCeil idM c8Box 0 - bbFloor idM c8Box 0 = 0
    have hc : bbCeil idM c8Box 0 = 0 := by
      show ⌈bbMaxs idM c8Box 0⌉ = 0
      rw [hmaxs0]
      norm_num
    rw [hc, hfloor 0]
    norm_num
  have hbv1 : bbBv idM c8Box 1 = 1 := by
    show bbCeil idM c8Box 1 - bbFloor idM c8Box 1 = 1
    have hc : bbCeil idM c8Box 1 = 1 := by
      show ⌈bbMaxs idM c8Box 1⌉ = 1
      rw [hmaxs1]
      norm_num
    rw [hc, hfloor 1]
    norm_num
  have hbv2 : bbBv idM c8Box 2 = 1 := by
    show bbCeil idM c8Box 2 - bbFloor idM c8Box 2 = 1
    have hc : bbCeil idM c8Box 2 = 1 := by
      show ⌈bbMaxs idM c8Box 2⌉ = 1
      rw [hmaxs2]
      norm_num
    rw [hc, hfloor 2]
    norm_num
  have hB00 : bbBox idM c8Box 0 0 = 0 := by
    show snapQ bbTol ((bbBv idM c8Box 0 : ℚ) * idM 0 0) = 0
    rw [hbv0, i00]
    push_cast
    rw [zero_mul, snapQ_zero_eq]
  have hB01 : bbBox idM c8Box 0 1 = 0 := by
    show snapQ bbTol ((bbBv idM c8Box 1 : ℚ) * idM 0 1) = 0
    rw [hbv1, i01]
    rw [mul_zero, snapQ_zero_eq]
  have hB02 : bbBox idM c8Box 0 2 = 0 := by
    show snapQ bbTol ((bbBv idM c8Box 2 : ℚ) * idM 0 2) = 0
    rw [hbv2, i02]
    rw [mul_zero, snapQ_zero_eq]
  have horig0 : bbOrigin idM c8Box 0 = 0 := by
    show mulV idM (fun c => (bbFloor idM c8Box c : ℚ)) 0 = 0
    rw [mulV_idM]
    rw [hfloor 0]
    norm_num
  refine ⟨rfl, rfl, ?_, ?_⟩
  · refine ⟨fun i => if i = 0 then 1 else 0, ?_, ?_⟩
    · intro i
      by_cases h : i = 0 <;> simp [h]
    · intro r
      have h1 : c8Pt r = c8Box r 0 := rfl
      show c8Pt r = zeroV r +
        ((if (0 : Fin 3) = 0 then (1 : ℚ) else 0) * c8Box r 0 +
         (if (1 : Fin 3) = 0 then (1 : ℚ) else 0) * c8Box r 1 +
         (if (2 : Fin 3) = 0 then (1 : ℚ) else 0) * c8Box r 2)
      rw [h1, if_pos rfl, if_neg (by decide), if_neg (by decide)]
      simp [zeroV]
  · rintro ⟨s, _, hp⟩
    have h0 := hp 0
    have hrhs : boxPoint (bbBox idM c8Box) s 0 = 0 := by
      show s 0 * bbBox idM c8Box 0 0 + s 1 * bbBox idM c8Box 0 1 +
        s 2 * bbBox idM c8Box 0 2 = 0
      rw [hB00, hB01, hB02]
      ring
    rw [horig0, hrhs] at h0
    have hlhs : c8Pt 0 = -(1 / 10 ^ 13) := rfl
    rw [hlhs] at h0
    norm_num at h0

/-- Witness for C3: resolving `'num_atoms'` with `include_id` and
`include_vals` set returns one definition carrying `vals = []`, as the
theorem predicts at that input. -/
theorem claim_C3_witness :
    get_depends "num_atoms" true true {} =
      .ok [{ type := some "compute"
             name := some "num_atoms"
             id := some "num_atoms"
             vals := some [] }] ∧
    ∀ d ∈ [({ type := some "compute"
              name := some "num_atoms"
              id := some "num_atoms"
              vals := some [] } : Defn)],
      d.vals = if true then some ([] : List PyVal) else none :=
  ⟨rfl, claim_C3_vals_toggle "num_atoms" true true {} _ rfl⟩
